import Mathlib

/-!
Verification of the porter repository excerpt: the three porter_app HTTP
handlers (`pod_status.go`, `current_app_revision.go`,
`latest_app_revisions.go`), the add-on dashboard filtering pipeline
(`AddOnDashboard.tsx`) and the metrics tooltip selection (`AreaChart.tsx`).

Each Go handler is embedded as a pure function from an environment record —
holding the decoded request, request-scoped context values and one oracle
function per downstream dependency (deployment-target resolution, Kubernetes
agent, cluster-control-plane RPC client, database repositories) — to a pair of
the HTTP outcome and the trace of downstream calls the handler performed.
External library behaviour (google/uuid, the Connect RPC client, client-go)
is kept opaque behind those oracle functions.
-/

namespace Porter

/-- Go `error` values as produced in the handlers: an error message together
with an optional wrapped cause. External/downstream errors are leaves. -/
inductive GoErr where
  | mk (msg : String) (cause : Option GoErr)

/-- Modelled from the spec: `telemetry.Error` (internal/telemetry, not in the
excerpt) records the error on the span and returns an error carrying the
given message and wrapping the upstream cause; the spec describes the
handlers as "a single pass-through of upstream errors as HTTP status codes". -/
def telemetryError (cause : Option GoErr) (msg : String) : GoErr :=
  .mk msg cause

/-- The outcome a handler writes: either `HandleAPIError` with an HTTP status
and the error passed through to the client, or `WriteResult` with a success
body. A handler returns after the first write, so the outcome is one value. -/
inductive HandlerResult (α : Type) where
  | apiError (status : Nat) (err : GoErr)
  | success (body : α)

/-- One downstream call performed by a handler: which call it was (with its
arguments) and the error it returned, `none` meaning it succeeded. -/
structure CallRecord (κ : Type) where
  call : κ
  err : Option GoErr

/-- The HTTP status a handler outcome carries, `none` on success. -/
def HandlerResult.statusOf {α : Type} : HandlerResult α → Option Nat
  | .apiError s _ => some s
  | .success _ => none

/-- The error a handler outcome passes to the client, `none` on success. -/
def HandlerResult.errOf {α : Type} : HandlerResult α → Option GoErr
  | .apiError _ e => some e
  | .success _ => none

/-- The wrapped cause of a Go error. -/
def GoErr.causeOf : GoErr → Option GoErr
  | .mk _ c => c

/-! ## GET /apps/pods — `PodStatusHandler.ServeHTTP` (pod_status.go) -/

/-- Struct `PodStatusRequest` (pod_status.go): body of a GET /apps/pods request. -/
structure PodStatusRequest where
  deploymentTargetID : String
  serviceName : String
deriving DecidableEq, Repr

/-- The fields of `deployment_target.DeploymentTarget` the handler reads:
only `Namespace` is used (`nspace` here, since its Go name is a Lean keyword). -/
structure DeploymentTarget where
  nspace : String
deriving DecidableEq, Repr

/-- A Kubernetes `v1.Pod`, opaque to the handler (it is passed through to the
response unchanged). -/
structure K8sPod where
  info : String
deriving DecidableEq, Repr

/-- A Kubernetes `v1.PodList` as returned by `agent.GetPodsByLabel`. -/
structure PodsList where
  items : List K8sPod
deriving DecidableEq, Repr

/-- The downstream calls `PodStatusHandler.ServeHTTP` can perform. -/
inductive PodCall where
  | deploymentTargetDetails (projectID clusterID : Int) (deploymentTargetID : String)
  | getAgent
  | getPodsByLabel (selector : String) (nspace : String)
deriving DecidableEq, Repr

/-- Environment of one GET /apps/pods request: decoded request, URL parameter,
request-scoped project/cluster, and one oracle per downstream dependency. -/
structure PodStatusEnv where
  projectID : Nat
  clusterID : Nat
  /-- result of `c.DecodeAndValidate`; `none` means validation failed -/
  decodeRequest : Option PodStatusRequest
  /-- result of `requestutils.GetURLParamString(r, types.URLParamPorterAppName)` -/
  urlPorterAppName : Except GoErr String
  /-- Resolver `deployment_target.DeploymentTargetDetails` for the fixed project and
  cluster, as a function of the deployment target id -/
  deploymentTargetDetails : String → Except GoErr DeploymentTarget
  /-- Call `c.GetAgent(r, cluster, "")`; the agent itself is opaque -/
  getAgent : Except GoErr Unit
  /-- Query `agent.GetPodsByLabel(selectors, namespace)` -/
  getPodsByLabel : String → String → Except GoErr PodsList

/-- Label selector built at pod_status.go lines 98-103. -/
def podSelectors (request : PodStatusRequest) (appName : String) : String :=
  if request.serviceName = "" then
    "porter.run/deployment-target-id=" ++ request.deploymentTargetID ++
      ",porter.run/app-name=" ++ appName
  else
    "porter.run/service-name=" ++ request.serviceName ++
      ",porter.run/deployment-target-id=" ++ request.deploymentTargetID ++
      ",porter.run/app-name=" ++ appName

/-- Handler `PodStatusHandler.ServeHTTP` (pod_status.go lines 44-114). -/
def podStatusServeHTTP (env : PodStatusEnv) :
    HandlerResult (List K8sPod) × List (CallRecord PodCall) :=
  match env.decodeRequest with
  | none => (.apiError 400 (telemetryError none "invalid request"), [])
  | some request =>
    match env.urlPorterAppName with
    | .error reqErr =>
        (.apiError 400 (telemetryError (some reqErr) "porter app name not found in request"), [])
    | .ok appName =>
      if request.deploymentTargetID = "" then
        (.apiError 400 (telemetryError none "must provide deployment target id"), [])
      else
        let dtdCall : PodCall :=
          .deploymentTargetDetails env.projectID env.clusterID request.deploymentTargetID
        match env.deploymentTargetDetails request.deploymentTargetID with
        | .error e =>
            (.apiError 500 (telemetryError (some e) "error getting deployment target details"),
              [⟨dtdCall, some e⟩])
        | .ok deploymentTarget =>
          let tr1 : List (CallRecord PodCall) := [⟨dtdCall, none⟩]
          match env.getAgent with
          | .error e =>
              (.apiError 500 (telemetryError (some e) "unable to get agent"),
                tr1 ++ [⟨.getAgent, some e⟩])
          | .ok _ =>
            let tr2 := tr1 ++ [⟨.getAgent, none⟩]
            let selectors := podSelectors request appName
            match env.getPodsByLabel selectors deploymentTarget.nspace with
            | .error e =>
                (.apiError 500 (telemetryError (some e) "unable to get pods by label"),
                  tr2 ++ [⟨.getPodsByLabel selectors deploymentTarget.nspace, some e⟩])
            | .ok podsList =>
                (.success podsList.items,
                  tr2 ++ [⟨.getPodsByLabel selectors deploymentTarget.nspace, none⟩])

/-! ## GET /apps/{porter_app_name}/latest — `LatestAppRevisionHandler.ServeHTTP`
(current_app_revision.go) -/

/-- A `uuid.UUID` value from google/uuid: 16 bytes. Parsing and rendering are
kept opaque (library code), only the comparison with `uuid.Nil` is concrete. -/
structure GoUUID where
  bytes : List Nat
deriving DecidableEq, Repr

/-- Constant `uuid.Nil`, the all-zero UUID (canonical form
00000000-0000-0000-0000-000000000000). -/
def uuidNil : GoUUID := ⟨List.replicate 16 0⟩

/-- Struct `LatestAppRevisionRequest` (current_app_revision.go). -/
structure LatestAppRevisionRequest where
  deploymentTargetID : String
deriving DecidableEq, Repr

/-- The fields of `models.PorterApp` (internal/models, not in the excerpt)
that the handlers read: the gorm row ID and the app name; the remaining
columns are opaque. -/
structure PorterAppModel where
  id : Nat
  name : String
  rest : String
deriving DecidableEq, Repr

/-- Proto message `porterv1.PorterApp` as read by the handlers: only the
`Name` field is accessed (`revision.App.Name`); the rest is opaque. -/
structure ProtoApp where
  name : String
  rest : String
deriving DecidableEq, Repr

/-- Proto message `porterv1.AppRevision`, opaque to the handlers except for
the nested `App.Name` read by the revisions handler. -/
structure ProtoAppRevision where
  app : ProtoApp
  content : String
deriving DecidableEq, Repr

/-- Struct `porter_app.Revision` (internal/porter_app, not in the excerpt): only the
`ID` and `AppInstanceID` fields are read by the handler, the remaining
revision content is opaque. -/
structure Revision where
  id : String
  appInstanceID : String
  content : String
deriving DecidableEq, Repr

/-- Struct `notifications.Notification` (internal/porter_app/notifications, not in
the excerpt): only the `Scope` field is read by the handler. -/
structure Notification where
  scope : String
  content : String
deriving DecidableEq, Repr

/-- Struct `models.PorterAppEvent`, opaque input of the notification conversion. -/
structure PorterAppEvent where
  content : String
deriving DecidableEq, Repr

/-- Proto message `porterv1.CurrentAppRevisionResponse`: its `AppRevision` field is
a proto pointer, hence possibly nil. -/
structure CurrentAppRevisionMsg where
  appRevision : Option ProtoAppRevision

/-- The downstream calls `LatestAppRevisionHandler.ServeHTTP` can perform. -/
inductive AppRevCall where
  | readPorterApps (projectID : Nat) (name : String)
  | ccpCurrentAppRevision (projectID appID : Int) (deploymentTargetID : String)
  | readNotifications (appInstanceID appRevisionID : String)
deriving DecidableEq, Repr

/-- Environment of one GET /apps/{porter_app_name}/latest request. -/
structure LatestAppRevisionEnv where
  projectID : Nat
  clusterID : Nat
  /-- result of `requestutils.GetURLParamString(r, types.URLParamPorterAppName)` -/
  urlPorterAppName : Except GoErr String
  /-- result of `c.DecodeAndValidate`; `none` means validation failed -/
  decodeRequest : Option LatestAppRevisionRequest
  /-- Parser `uuid.Parse` from google/uuid, opaque library code -/
  uuidParse : String → Except GoErr GoUUID
  /-- Repository read `c.Repo().PorterApp().ReadPorterAppsByProjectIDAndName` -/
  readPorterAppsByProjectIDAndName : Nat → String → Except GoErr (List PorterAppModel)
  /-- RPC `c.Config().ClusterControlPlaneClient.CurrentAppRevision`; the outer
  `none` models a nil response or nil `resp.Msg` -/
  currentAppRevision : Int → Int → String → Except GoErr (Option CurrentAppRevisionMsg)
  /-- Encoder `porter_app.EncodedRevisionFromProto` (internal/porter_app, not in
  the excerpt), opaque encoding of a possibly-nil proto revision -/
  encodedRevisionFromProto : Option ProtoAppRevision → Except GoErr Revision
  /-- Repository read `c.Repo().PorterAppEvent().ReadNotificationsByAppRevisionID` -/
  readNotificationsByAppRevisionID : String → String → Except GoErr (List PorterAppEvent)
  /-- Converter `notifications.NotificationFromPorterAppEvent` (internal code, not in
  the excerpt): returns a possibly-nil notification or an error -/
  notificationFromPorterAppEvent : PorterAppEvent → Except GoErr (Option Notification)

/-- Struct `LatestAppRevisionResponse` (current_app_revision.go lines 51-56). -/
structure LatestAppRevisionResponse where
  appRevision : Revision
  notifications : List Notification
deriving DecidableEq, Repr

/-- The notification collection loop (current_app_revision.go lines 161-178):
events that fail conversion, convert to nil, or have an empty scope are
skipped; the rest are appended in order to the list made with `make(..., 0)`. -/
def collectNotifications (env : LatestAppRevisionEnv) (events : List PorterAppEvent) :
    List Notification :=
  events.foldl (fun acc event =>
    match env.notificationFromPorterAppEvent event with
    | .error _ => acc
    | .ok none => acc
    | .ok (some notification) =>
        if notification.scope = "" then acc else acc ++ [notification]) []

/-- Handler `LatestAppRevisionHandler.ServeHTTP` (current_app_revision.go lines
60-186). -/
def latestAppRevisionServeHTTP (env : LatestAppRevisionEnv) :
    HandlerResult LatestAppRevisionResponse × List (CallRecord AppRevCall) :=
  match env.urlPorterAppName with
  | .error reqErr =>
      (.apiError 400 (telemetryError (some reqErr) "error parsing stack name from url"), [])
  | .ok appName =>
    match env.decodeRequest with
    | none => (.apiError 400 (telemetryError none "error decoding request"), [])
    | some request =>
      match env.uuidParse request.deploymentTargetID with
      | .error e =>
          (.apiError 400 (telemetryError (some e) "error parsing deployment target id"), [])
      | .ok _ =>
        let readCall : AppRevCall := .readPorterApps env.projectID appName
        match env.readPorterAppsByProjectIDAndName env.projectID appName with
        | .error e =>
            (.apiError 400 (telemetryError (some e) "error getting porter app from repo"),
              [⟨readCall, some e⟩])
        | .ok porterApps =>
          let tr1 : List (CallRecord AppRevCall) := [⟨readCall, none⟩]
          if porterApps.length = 0 then
            (.apiError 400 (telemetryError none "no porter apps returned"), tr1)
          else if porterApps.length > 1 then
            (.apiError 400 (telemetryError none
              "multiple porter apps returned; unable to determine which one to use"), tr1)
          else
            let appId := (porterApps.headD ⟨0, "", ""⟩).id
            if appId = 0 then
              (.apiError 500 (telemetryError none "porter app id is missing"), tr1)
            else
              let ccpCall : AppRevCall :=
                .ccpCurrentAppRevision env.projectID appId request.deploymentTargetID
              match env.currentAppRevision env.projectID appId request.deploymentTargetID with
              | .error e =>
                  (.apiError 400 (telemetryError (some e)
                    "error getting current app revision from cluster control plane client"),
                    tr1 ++ [⟨ccpCall, some e⟩])
              | .ok none =>
                  (.apiError 500 (telemetryError none "current app revision resp is nil"),
                    tr1 ++ [⟨ccpCall, none⟩])
              | .ok (some msg) =>
                let tr2 := tr1 ++ [⟨ccpCall, none⟩]
                match env.encodedRevisionFromProto msg.appRevision with
                | .error e =>
                    (.apiError 500 (telemetryError (some e)
                      "error encoding revision from proto"), tr2)
                | .ok encodedRevision =>
                  let notifCall : AppRevCall :=
                    .readNotifications encodedRevision.appInstanceID encodedRevision.id
                  match env.readNotificationsByAppRevisionID
                      encodedRevision.appInstanceID encodedRevision.id with
                  | .error e =>
                      (.apiError 500 (telemetryError (some e)
                        "error getting notifications from repo"),
                        tr2 ++ [⟨notifCall, some e⟩])
                  | .ok notificationEvents =>
                      (.success ⟨encodedRevision, collectNotifications env notificationEvents⟩,
                        tr2 ++ [⟨notifCall, none⟩])

/-! ## GET /apps/revisions — `LatestAppRevisionsHandler.ServeHTTP`
(latest_app_revisions.go) -/

/-- Struct `LatestAppRevisionsRequest` (latest_app_revisions.go). -/
structure LatestAppRevisionsRequest where
  deploymentTargetID : String
deriving DecidableEq, Repr

/-- Struct `types.PorterApp` as produced by `models.PorterApp.ToPorterAppType`,
opaque to the handler. -/
structure PorterAppType where
  content : String
deriving DecidableEq, Repr

/-- Proto message `porterv1.LatestAppRevisionsResponse`: `AppRevisions` is a Go
slice of proto pointers, possibly nil (`none`). -/
structure LatestAppRevisionsMsg where
  appRevisions : Option (List ProtoAppRevision)

/-- Struct `LatestRevisionWithSource` (latest_app_revisions.go lines 41-44). -/
structure LatestRevisionWithSource where
  appRevision : Revision
  source : PorterAppType
deriving DecidableEq, Repr

/-- Struct `LatestAppRevisionsResponse` (latest_app_revisions.go lines 47-49): the
`AppRevisions` slice is created with `make(..., 0)`, so it is never nil. -/
structure LatestAppRevisionsResponse where
  appRevisions : List LatestRevisionWithSource
deriving DecidableEq, Repr

/-- The downstream calls `LatestAppRevisionsHandler.ServeHTTP` can perform. -/
inductive RevsCall where
  | ccpLatestAppRevisions (projectID : Int) (deploymentTargetID : String)
  | readPorterAppByName (clusterID : Nat) (name : String)
deriving DecidableEq, Repr

/-- Environment of one GET /apps/revisions request. -/
structure LatestAppRevisionsEnv where
  projectID : Nat
  clusterID : Nat
  /-- result of `c.DecodeAndValidate`; `none` means validation failed -/
  decodeRequest : Option LatestAppRevisionsRequest
  /-- Parser `uuid.Parse` from google/uuid, opaque library code -/
  uuidParse : String → Except GoErr GoUUID
  /-- Renderer `uuid.UUID.String` from google/uuid, opaque library code -/
  uuidString : GoUUID → String
  /-- RPC `c.Config().ClusterControlPlaneClient.LatestAppRevisions`; the outer
  `none` models a nil response or nil `resp.Msg` -/
  latestAppRevisions : Int → String → Except GoErr (Option LatestAppRevisionsMsg)
  /-- Encoder `porter_app.EncodedRevisionFromProto` (internal/porter_app, not in
  the excerpt), opaque -/
  encodedRevisionFromProto : Option ProtoAppRevision → Except GoErr Revision
  /-- Repository read `c.Repo().PorterApp().ReadPorterAppByName`; `ok none` models a nil app
  pointer returned without error -/
  readPorterAppByName : Nat → String → Except GoErr (Option PorterAppModel)
  /-- Converter `models.PorterApp.ToPorterAppType` (internal/models, not in the
  excerpt), opaque conversion -/
  toPorterAppType : PorterAppModel → PorterAppType

/-- The loop of `LatestAppRevisionsHandler.ServeHTTP` (latest_app_revisions.go
lines 104-128): encode each proto revision, read its source porter app by
name on the current cluster, and append the pair; any failure aborts the
whole request with a 500. -/
def buildRevisions (env : LatestAppRevisionsEnv) (revs : List ProtoAppRevision)
    (acc : List LatestRevisionWithSource) (tr : List (CallRecord RevsCall)) :
    HandlerResult LatestAppRevisionsResponse × List (CallRecord RevsCall) :=
  match revs with
  | [] => (.success ⟨acc⟩, tr)
  | revision :: rest =>
    match env.encodedRevisionFromProto (some revision) with
    | .error e =>
        (.apiError 500 (telemetryError (some e) "error getting encoded revision from proto"), tr)
    | .ok encodedRevision =>
      let readCall : RevsCall := .readPorterAppByName env.clusterID revision.app.name
      match env.readPorterAppByName env.clusterID revision.app.name with
      | .error e =>
          (.apiError 500 (telemetryError (some e) "error reading porter app"),
            tr ++ [⟨readCall, some e⟩])
      | .ok none =>
          (.apiError 500 (telemetryError none "porter app is nil"), tr ++ [⟨readCall, none⟩])
      | .ok (some porterApp) =>
          buildRevisions env rest (acc ++ [⟨encodedRevision, env.toPorterAppType porterApp⟩])
            (tr ++ [⟨readCall, none⟩])

/-- Handler `LatestAppRevisionsHandler.ServeHTTP` (latest_app_revisions.go lines
51-131). -/
def latestAppRevisionsServeHTTP (env : LatestAppRevisionsEnv) :
    HandlerResult LatestAppRevisionsResponse × List (CallRecord RevsCall) :=
  match env.decodeRequest with
  | none => (.apiError 400 (telemetryError none "error decoding request"), [])
  | some request =>
    match env.uuidParse request.deploymentTargetID with
    | .error e =>
        (.apiError 400 (telemetryError (some e) "error parsing deployment target id"), [])
    | .ok deploymentTargetID =>
      if deploymentTargetID = uuidNil then
        (.apiError 400 (telemetryError none "deployment target id is nil"), [])
      else
        let ccpCall : RevsCall :=
          .ccpLatestAppRevisions env.projectID (env.uuidString deploymentTargetID)
        match env.latestAppRevisions env.projectID (env.uuidString deploymentTargetID) with
        | .error e =>
            (.apiError 500 (telemetryError (some e) "error getting latest app revisions"),
              [⟨ccpCall, some e⟩])
        | .ok none =>
            (.apiError 500 (telemetryError none "latest app revisions response is nil"),
              [⟨ccpCall, none⟩])
        | .ok (some msg) =>
            let appRevisions := msg.appRevisions.getD []
            buildRevisions env appRevisions [] [⟨ccpCall, none⟩]

/-! ## Add-on dashboard — `filteredAddOns` (AddOnDashboard.tsx) -/

/-- Field `chart.metadata` of a Helm chart as read by the dashboard. -/
structure ChartMetadata where
  name : String
  icon : String
deriving DecidableEq, Repr

/-- The chart of a deployed add-on. -/
structure Chart where
  metadata : ChartMetadata
deriving DecidableEq, Repr

/-- An add-on (Helm release) as listed by the dashboard: only the keys the
filtering pipeline reads are named (`nspace` is the `namespace` key, a Lean
keyword). -/
structure AddOn where
  name : String
  nspace : String
  chart : Chart
deriving DecidableEq, Repr

/-- Constant `namespaceBlacklist` (AddOnDashboard.tsx lines 43-52). -/
def namespaceBlacklist : List String :=
  ["ack-system", "cert-manager", "ingress-nginx", "kube-node-lease",
   "kube-public", "kube-system", "monitoring", "porter-agent-system"]

/-- Constant `templateBlacklist` (AddOnDashboard.tsx lines 54-59). -/
def templateBlacklist : List String :=
  ["web", "worker", "job", "umbrella"]

/-- The characters of a string, lower-cased. -/
def toLowerChars (s : String) : List Char := s.toList.map Char.toLower

/-- Whether `needle` occurs as a contiguous run of `hay`. -/
def isSubstringOf (needle hay : List Char) : Bool :=
  (List.range (hay.length + 1)).any (fun i => needle.isPrefixOf (hay.drop i))

/-- Modelled from the spec: `search` from shared/search (not in the excerpt),
called with `keys: ["name", "chart.metadata.name"]` and
`isCaseSensitive: false`, keeps the objects for which the search value
matches the `name` or `chart.metadata.name` key case-insensitively. -/
def searchAddOns (objects : List AddOn) (searchValue : String) : List AddOn :=
  objects.filter (fun app =>
    isSubstringOf (toLowerChars searchValue) (toLowerChars app.name) ||
    isSubstringOf (toLowerChars searchValue) (toLowerChars app.chart.metadata.name))

/-- lodash `_.sortBy(collection)` with no iteratee (external library): the
identity iteratee makes lodash compare the objects themselves, its
`compareAscending` returns 0 on any two plain objects, and the sort is
stable, so the input order is preserved. -/
def lodashSortBy (l : List AddOn) : List AddOn := l

/-- The `filteredAddOns` memo (AddOnDashboard.tsx lines 70-88): namespace and
template blacklist filter, then search, then `_.sortBy`. -/
def filteredAddOns (addOns : List AddOn) (searchValue : String) : List AddOn :=
  let filtered := addOns.filter (fun app =>
    !(namespaceBlacklist.contains app.nspace) &&
    !(templateBlacklist.contains app.chart.metadata.name))
  lodashSortBy (searchAddOns filtered searchValue)

/-! ## Metrics tooltip — `bisectDate` and `handleTooltip` (AreaChart.tsx) -/

/-- Struct `NormalizedMetricsData`: a metrics datum with a unix timestamp in seconds
and a value; only the date takes part in the tooltip selection. -/
structure NormalizedMetricsData where
  date : Int
  value : Int
deriving DecidableEq, Repr

/-- Accessor `getDate` (AreaChart.tsx line 57): `new Date(d.date * 1000)`, as
milliseconds since the epoch. -/
def getDateMs (d : NormalizedMetricsData) : Int := d.date * 1000

/-- d3-array `bisector(...).left` (external library): binary search for the
leftmost insertion point of `x` in `a` within `[lo, hi]`, exactly the loop
`while (lo < hi) { mid = (lo + hi) >>> 1; if (a[mid] < x) lo = mid + 1; else
hi = mid; }`. -/
def d3BisectLeft (a : List Int) (x : Int) (lo hi : Nat) : Nat :=
  if h : lo < hi then
    let mid := (lo + hi) / 2
    if a.getD mid 0 < x then d3BisectLeft a x (mid + 1) hi
    else d3BisectLeft a x lo mid
  else lo
termination_by hi - lo
decreasing_by all_goals simp_wf; omega

/-- Call `bisectDate(globalData, x0, 1)` (AreaChart.tsx lines 60-62 and 138): the
bisection is on the dates in milliseconds, starting at `lo = 1`. -/
def tooltipIndex (data : List NormalizedMetricsData) (x0 : Int) : Nat :=
  d3BisectLeft (data.map getDateMs) x0 1 data.length

/-- The datum selection of `handleTooltip` (AreaChart.tsx lines 138-149):
`d0 = data[index - 1]`, `d1 = data[index]`, and `d1` is chosen exactly when
it exists and `x0 - getDate(d0) > getDate(d1) - x0`. `none` models the crash
on an empty series (`d0` undefined). -/
def handleTooltipSelect (data : List NormalizedMetricsData) (x0 : Int) :
    Option NormalizedMetricsData :=
  let index := tooltipIndex data x0
  match data[index - 1]?, data[index]? with
  | some d0, some d1 =>
      some (if x0 - getDateMs d0 > getDateMs d1 - x0 then d1 else d0)
  | some d0, none => some d0
  | none, _ => none

/-! ## Theorems -/

/-- Exhaustive description of `podStatusServeHTTP`: the seven early-return
paths of pod_status.go, each with the oracle results that select it and the
exact outcome and call trace it produces. -/
theorem podStatusServeHTTP_cases (env : PodStatusEnv) :
    (env.decodeRequest = none ∧
      podStatusServeHTTP env = (.apiError 400 (telemetryError none "invalid request"), [])) ∨
    (∃ req e, env.decodeRequest = some req ∧ env.urlPorterAppName = .error e ∧
      podStatusServeHTTP env =
        (.apiError 400 (telemetryError (some e) "porter app name not found in request"), [])) ∨
    (∃ req a, env.decodeRequest = some req ∧ env.urlPorterAppName = .ok a ∧
      req.deploymentTargetID = "" ∧
      podStatusServeHTTP env =
        (.apiError 400 (telemetryError none "must provide deployment target id"), [])) ∨
    (∃ req a e, env.decodeRequest = some req ∧ env.urlPorterAppName = .ok a ∧
      req.deploymentTargetID ≠ "" ∧
      env.deploymentTargetDetails req.deploymentTargetID = .error e ∧
      podStatusServeHTTP env =
        (.apiError 500 (telemetryError (some e) "error getting deployment target details"),
          [⟨.deploymentTargetDetails env.projectID env.clusterID req.deploymentTargetID,
            some e⟩])) ∨
    (∃ req a dt e, env.decodeRequest = some req ∧ env.urlPorterAppName = .ok a ∧
      req.deploymentTargetID ≠ "" ∧
      env.deploymentTargetDetails req.deploymentTargetID = .ok dt ∧
      env.getAgent = .error e ∧
      podStatusServeHTTP env =
        (.apiError 500 (telemetryError (some e) "unable to get agent"),
          [⟨.deploymentTargetDetails env.projectID env.clusterID req.deploymentTargetID, none⟩,
           ⟨.getAgent, some e⟩])) ∨
    (∃ req a dt e, env.decodeRequest = some req ∧ env.urlPorterAppName = .ok a ∧
      req.deploymentTargetID ≠ "" ∧
      env.deploymentTargetDetails req.deploymentTargetID = .ok dt ∧
      env.getAgent = .ok () ∧
      env.getPodsByLabel (podSelectors req a) dt.nspace = .error e ∧
      podStatusServeHTTP env =
        (.apiError 500 (telemetryError (some e) "unable to get pods by label"),
          [⟨.deploymentTargetDetails env.projectID env.clusterID req.deploymentTargetID, none⟩,
           ⟨.getAgent, none⟩,
           ⟨.getPodsByLabel (podSelectors req a) dt.nspace, some e⟩])) ∨
    (∃ req a dt pl, env.decodeRequest = some req ∧ env.urlPorterAppName = .ok a ∧
      req.deploymentTargetID ≠ "" ∧
      env.deploymentTargetDetails req.deploymentTargetID = .ok dt ∧
      env.getAgent = .ok () ∧
      env.getPodsByLabel (podSelectors req a) dt.nspace = .ok pl ∧
      podStatusServeHTTP env =
        (.success pl.items,
          [⟨.deploymentTargetDetails env.projectID env.clusterID req.deploymentTargetID, none⟩,
           ⟨.getAgent, none⟩,
           ⟨.getPodsByLabel (podSelectors req a) dt.nspace, none⟩])) := by
  cases hd : env.decodeRequest with
  | none => exact Or.inl ⟨rfl, by simp [podStatusServeHTTP, hd]⟩
  | some request =>
    cases hu : env.urlPorterAppName with
    | error e =>
        exact Or.inr (Or.inl ⟨request, e, rfl, rfl, by simp [podStatusServeHTTP, hd, hu]⟩)
    | ok appName =>
      by_cases hdt : request.deploymentTargetID = ""
      · exact Or.inr (Or.inr (Or.inl ⟨request, appName, rfl, rfl, hdt,
          by simp [podStatusServeHTTP, hd, hu, hdt]⟩))
      · cases hres : env.deploymentTargetDetails request.deploymentTargetID with
        | error e =>
            exact Or.inr (Or.inr (Or.inr (Or.inl ⟨request, appName, e, rfl, rfl, hdt, hres,
              by simp [podStatusServeHTTP, hd, hu, hdt, hres]⟩)))
        | ok dt =>
          cases hag : env.getAgent with
          | error e =>
              exact Or.inr (Or.inr (Or.inr (Or.inr (Or.inl ⟨request, appName, dt, e,
                rfl, rfl, hdt, hres, rfl,
                by simp [podStatusServeHTTP, hd, hu, hdt, hres, hag]⟩))))
          | ok u =>
            cases u
            cases hpods : env.getPodsByLabel (podSelectors request appName) dt.nspace with
            | error e =>
                exact Or.inr (Or.inr (Or.inr (Or.inr (Or.inr (Or.inl ⟨request, appName, dt, e,
                  rfl, rfl, hdt, hres, rfl, hpods,
                  by simp [podStatusServeHTTP, hd, hu, hdt, hres, hag, hpods]⟩)))))
            | ok pl =>
                exact Or.inr (Or.inr (Or.inr (Or.inr (Or.inr (Or.inr ⟨request, appName, dt, pl,
                  rfl, rfl, hdt, hres, rfl, hpods,
                  by simp [podStatusServeHTTP, hd, hu, hdt, hres, hag, hpods]⟩)))))

/-- C5: GET /apps/pods responds with HTTP 400 and performs no downstream call
(no deployment-target resolution, no agent creation, no pod query) whenever
the request fails to decode and validate, the porter app name URL parameter
is missing, or `deployment_target_id` is the empty string. -/
theorem pod_status_early_400 (env : PodStatusEnv)
    (h : env.decodeRequest = none ∨ (∃ e, env.urlPorterAppName = .error e) ∨
      (∃ req, env.decodeRequest = some req ∧ req.deploymentTargetID = "")) :
    (podStatusServeHTTP env).1.statusOf = some 400 ∧ (podStatusServeHTTP env).2 = [] := by
  rcases h with h | ⟨e, he⟩ | ⟨req, hreq, hdt⟩
  · simp [podStatusServeHTTP, h, HandlerResult.statusOf]
  · cases hd : env.decodeRequest with
    | none => simp [podStatusServeHTTP, hd, HandlerResult.statusOf]
    | some request => simp [podStatusServeHTTP, hd, he, HandlerResult.statusOf]
  · cases hu : env.urlPorterAppName with
    | error e => simp [podStatusServeHTTP, hreq, hu, HandlerResult.statusOf]
    | ok appName => simp [podStatusServeHTTP, hreq, hu, hdt, HandlerResult.statusOf]

/-- Environment used to witness the pod-status theorems: validation fails. -/
def podEnvBadDecode : PodStatusEnv where
  projectID := 1
  clusterID := 2
  decodeRequest := none
  urlPorterAppName := .ok "my-app"
  deploymentTargetDetails := fun _ => .ok ⟨"target-ns"⟩
  getAgent := .ok ()
  getPodsByLabel := fun _ _ => .ok ⟨[⟨"pod-a"⟩]⟩

/-- Witness for C5 at a concrete request whose validation fails. -/
theorem pod_status_early_400_witness :
    (podStatusServeHTTP podEnvBadDecode).1.statusOf = some 400 ∧
      (podStatusServeHTTP podEnvBadDecode).2 = [] :=
  pod_status_early_400 podEnvBadDecode (Or.inl rfl)

/-- C2: for every GET /apps/pods request that passes validation, the handler
queries pods in the namespace of the resolved deployment target using exactly
the label selector "porter.run/deployment-target-id=<id>,porter.run/app-name=<app>"
when the service field is empty, and
"porter.run/service-name=<service>,porter.run/deployment-target-id=<id>,porter.run/app-name=<app>"
when it is non-empty (`podSelectors`), and the success response body is
exactly the list of pod items returned by that query: (1) with a validated
request, a resolved target and a working agent the handler performs exactly
one pod query, with that selector and namespace, and writes its items; (2)
every success outcome arises this way. -/
theorem pod_status_selector_and_body :
    (∀ (env : PodStatusEnv) req a dt pl, env.decodeRequest = some req →
      env.urlPorterAppName = .ok a → req.deploymentTargetID ≠ "" →
      env.deploymentTargetDetails req.deploymentTargetID = .ok dt →
      env.getAgent = .ok () →
      env.getPodsByLabel (podSelectors req a) dt.nspace = .ok pl →
      podStatusServeHTTP env = (.success pl.items,
        [⟨.deploymentTargetDetails env.projectID env.clusterID req.deploymentTargetID, none⟩,
         ⟨.getAgent, none⟩,
         ⟨.getPodsByLabel (podSelectors req a) dt.nspace, none⟩])) ∧
    (∀ (env : PodStatusEnv) body tr, podStatusServeHTTP env = (.success body, tr) →
      ∃ req a dt, env.decodeRequest = some req ∧ env.urlPorterAppName = .ok a ∧
        env.deploymentTargetDetails req.deploymentTargetID = .ok dt ∧
        env.getPodsByLabel (podSelectors req a) dt.nspace = .ok ⟨body⟩ ∧
        tr = [⟨.deploymentTargetDetails env.projectID env.clusterID req.deploymentTargetID, none⟩,
          ⟨.getAgent, none⟩,
          ⟨.getPodsByLabel (podSelectors req a) dt.nspace, none⟩]) := by
  constructor
  · intro env req a dt pl hd hu hdt hres hag hpods
    simp [podStatusServeHTTP, hd, hu, hdt, hres, hag, hpods]
  · intro env body tr h
    rcases podStatusServeHTTP_cases env with
      ⟨hd, hout⟩ | ⟨req, e, hd, hu, hout⟩ | ⟨req, a, hd, hu, hdt, hout⟩ |
      ⟨req, a, e, hd, hu, hdt, hres, hout⟩ | ⟨req, a, dt, e, hd, hu, hdt, hres, hag, hout⟩ |
      ⟨req, a, dt, e, hd, hu, hdt, hres, hag, hpods, hout⟩ |
      ⟨req, a, dt, pl, hd, hu, hdt, hres, hag, hpods, hout⟩ <;>
      rw [hout] at h <;> simp only [Prod.mk.injEq] at h
    · exact absurd h.1 (by simp)
    · exact absurd h.1 (by simp)
    · exact absurd h.1 (by simp)
    · exact absurd h.1 (by simp)
    · exact absurd h.1 (by simp)
    · exact absurd h.1 (by simp)
    · obtain ⟨hb, htr⟩ := h
      cases hb
      exact ⟨req, a, dt, hd, hu, hres, hpods, htr.symm⟩

/-- Environment used to witness the pod-status query theorem: everything
succeeds and the request names service "web". -/
def podEnvAllOk : PodStatusEnv where
  projectID := 3
  clusterID := 4
  decodeRequest := some ⟨"dt-123", "web"⟩
  urlPorterAppName := .ok "my-app"
  deploymentTargetDetails := fun _ => .ok ⟨"target-ns"⟩
  getAgent := .ok ()
  getPodsByLabel := fun _ _ => .ok ⟨[⟨"pod-a"⟩, ⟨"pod-b"⟩]⟩

/-- Witness for C2: on a concrete validated request the handler queries with
the exact selector string and passes the pod items through. -/
theorem pod_status_selector_and_body_witness :
    podStatusServeHTTP podEnvAllOk = (.success [⟨"pod-a"⟩, ⟨"pod-b"⟩],
      [⟨.deploymentTargetDetails 3 4 "dt-123", none⟩,
       ⟨.getAgent, none⟩,
       ⟨.getPodsByLabel
         "porter.run/service-name=web,porter.run/deployment-target-id=dt-123,porter.run/app-name=my-app"
         "target-ns", none⟩]) := by
  have h := pod_status_selector_and_body.1 podEnvAllOk ⟨"dt-123", "web"⟩ "my-app"
    ⟨"target-ns"⟩ ⟨[⟨"pod-a"⟩, ⟨"pod-b"⟩]⟩ rfl rfl (by decide) rfl rfl rfl
  exact h

/-- Exhaustive description of `latestAppRevisionServeHTTP`: the twelve
return paths of current_app_revision.go, each with the oracle results that
select it and the exact outcome and call trace it produces. -/
theorem latestAppRevisionServeHTTP_cases (env : LatestAppRevisionEnv) :
    (∃ e, env.urlPorterAppName = .error e ∧
      latestAppRevisionServeHTTP env =
        (.apiError 400 (telemetryError (some e) "error parsing stack name from url"), [])) ∨
    (env.decodeRequest = none ∧
      latestAppRevisionServeHTTP env =
        (.apiError 400 (telemetryError none "error decoding request"), [])) ∨
    (∃ a req e, env.urlPorterAppName = .ok a ∧ env.decodeRequest = some req ∧
      env.uuidParse req.deploymentTargetID = .error e ∧
      latestAppRevisionServeHTTP env =
        (.apiError 400 (telemetryError (some e) "error parsing deployment target id"), [])) ∨
    (∃ a req u e, env.urlPorterAppName = .ok a ∧ env.decodeRequest = some req ∧
      env.uuidParse req.deploymentTargetID = .ok u ∧
      env.readPorterAppsByProjectIDAndName env.projectID a = .error e ∧
      latestAppRevisionServeHTTP env =
        (.apiError 400 (telemetryError (some e) "error getting porter app from repo"),
          [⟨.readPorterApps env.projectID a, some e⟩])) ∨
    (∃ a req u, env.urlPorterAppName = .ok a ∧ env.decodeRequest = some req ∧
      env.uuidParse req.deploymentTargetID = .ok u ∧
      env.readPorterAppsByProjectIDAndName env.projectID a = .ok [] ∧
      latestAppRevisionServeHTTP env =
        (.apiError 400 (telemetryError none "no porter apps returned"),
          [⟨.readPorterApps env.projectID a, none⟩])) ∨
    (∃ a req u apps, env.urlPorterAppName = .ok a ∧ env.decodeRequest = some req ∧
      env.uuidParse req.deploymentTargetID = .ok u ∧
      env.readPorterAppsByProjectIDAndName env.projectID a = .ok apps ∧ apps.length > 1 ∧
      latestAppRevisionServeHTTP env =
        (.apiError 400 (telemetryError none
          "multiple porter apps returned; unable to determine which one to use"),
          [⟨.readPorterApps env.projectID a, none⟩])) ∨
    (∃ a req u app, env.urlPorterAppName = .ok a ∧ env.decodeRequest = some req ∧
      env.uuidParse req.deploymentTargetID = .ok u ∧
      env.readPorterAppsByProjectIDAndName env.projectID a = .ok [app] ∧ app.id = 0 ∧
      latestAppRevisionServeHTTP env =
        (.apiError 500 (telemetryError none "porter app id is missing"),
          [⟨.readPorterApps env.projectID a, none⟩])) ∨
    (∃ a req u app e, env.urlPorterAppName = .ok a ∧ env.decodeRequest = some req ∧
      env.uuidParse req.deploymentTargetID = .ok u ∧
      env.readPorterAppsByProjectIDAndName env.projectID a = .ok [app] ∧ app.id ≠ 0 ∧
      env.currentAppRevision env.projectID app.id req.deploymentTargetID = .error e ∧
      latestAppRevisionServeHTTP env =
        (.apiError 400 (telemetryError (some e)
          "error getting current app revision from cluster control plane client"),
          [⟨.readPorterApps env.projectID a, none⟩,
           ⟨.ccpCurrentAppRevision env.projectID app.id req.deploymentTargetID, some e⟩])) ∨
    (∃ a req u app, env.urlPorterAppName = .ok a ∧ env.decodeRequest = some req ∧
      env.uuidParse req.deploymentTargetID = .ok u ∧
      env.readPorterAppsByProjectIDAndName env.projectID a = .ok [app] ∧ app.id ≠ 0 ∧
      env.currentAppRevision env.projectID app.id req.deploymentTargetID = .ok none ∧
      latestAppRevisionServeHTTP env =
        (.apiError 500 (telemetryError none "current app revision resp is nil"),
          [⟨.readPorterApps env.projectID a, none⟩,
           ⟨.ccpCurrentAppRevision env.projectID app.id req.deploymentTargetID, none⟩])) ∨
    (∃ a req u app msg e, env.urlPorterAppName = .ok a ∧ env.decodeRequest = some req ∧
      env.uuidParse req.deploymentTargetID = .ok u ∧
      env.readPorterAppsByProjectIDAndName env.projectID a = .ok [app] ∧ app.id ≠ 0 ∧
      env.currentAppRevision env.projectID app.id req.deploymentTargetID = .ok (some msg) ∧
      env.encodedRevisionFromProto msg.appRevision = .error e ∧
      latestAppRevisionServeHTTP env =
        (.apiError 500 (telemetryError (some e) "error encoding revision from proto"),
          [⟨.readPorterApps env.projectID a, none⟩,
           ⟨.ccpCurrentAppRevision env.projectID app.id req.deploymentTargetID, none⟩])) ∨
    (∃ a req u app msg enc e, env.urlPorterAppName = .ok a ∧ env.decodeRequest = some req ∧
      env.uuidParse req.deploymentTargetID = .ok u ∧
      env.readPorterAppsByProjectIDAndName env.projectID a = .ok [app] ∧ app.id ≠ 0 ∧
      env.currentAppRevision env.projectID app.id req.deploymentTargetID = .ok (some msg) ∧
      env.encodedRevisionFromProto msg.appRevision = .ok enc ∧
      env.readNotificationsByAppRevisionID enc.appInstanceID enc.id = .error e ∧
      latestAppRevisionServeHTTP env =
        (.apiError 500 (telemetryError (some e) "error getting notifications from repo"),
          [⟨.readPorterApps env.projectID a, none⟩,
           ⟨.ccpCurrentAppRevision env.projectID app.id req.deploymentTargetID, none⟩,
           ⟨.readNotifications enc.appInstanceID enc.id, some e⟩])) ∨
    (∃ a req u app msg enc events, env.urlPorterAppName = .ok a ∧
      env.decodeRequest = some req ∧
      env.uuidParse req.deploymentTargetID = .ok u ∧
      env.readPorterAppsByProjectIDAndName env.projectID a = .ok [app] ∧ app.id ≠ 0 ∧
      env.currentAppRevision env.projectID app.id req.deploymentTargetID = .ok (some msg) ∧
      env.encodedRevisionFromProto msg.appRevision = .ok enc ∧
      env.readNotificationsByAppRevisionID enc.appInstanceID enc.id = .ok events ∧
      latestAppRevisionServeHTTP env =
        (.success ⟨enc, collectNotifications env events⟩,
          [⟨.readPorterApps env.projectID a, none⟩,
           ⟨.ccpCurrentAppRevision env.projectID app.id req.deploymentTargetID, none⟩,
           ⟨.readNotifications enc.appInstanceID enc.id, none⟩])) := by
  cases hu : env.urlPorterAppName with
  | error e => exact Or.inl ⟨e, rfl, by simp [latestAppRevisionServeHTTP, hu]⟩
  | ok a =>
  cases hd : env.decodeRequest with
  | none => exact Or.inr (Or.inl ⟨rfl, by simp [latestAppRevisionServeHTTP, hu, hd]⟩)
  | some req =>
  cases hpar : env.uuidParse req.deploymentTargetID with
  | error e =>
      exact Or.inr (Or.inr (Or.inl ⟨a, req, e, rfl, rfl, hpar,
        by simp [latestAppRevisionServeHTTP, hu, hd, hpar]⟩))
  | ok u =>
  cases hrepo : env.readPorterAppsByProjectIDAndName env.projectID a with
  | error e =>
      exact Or.inr (Or.inr (Or.inr (Or.inl ⟨a, req, u, e, rfl, rfl, hpar, hrepo,
        by simp [latestAppRevisionServeHTTP, hu, hd, hpar, hrepo]⟩)))
  | ok apps =>
  match apps, hrepo with
  | [], hrepo =>
      exact Or.inr (Or.inr (Or.inr (Or.inr (Or.inl ⟨a, req, u, rfl, rfl, hpar, hrepo,
        by simp [latestAppRevisionServeHTTP, hu, hd, hpar, hrepo]⟩))))
  | app :: app2 :: rest, hrepo =>
      refine Or.inr (Or.inr (Or.inr (Or.inr (Or.inr (Or.inl
        ⟨a, req, u, app :: app2 :: rest, rfl, rfl, hpar, hrepo, by simp, ?_⟩)))))
      simp [latestAppRevisionServeHTTP, hu, hd, hpar, hrepo]
  | [app], hrepo =>
  by_cases hid : app.id = 0
  · exact Or.inr (Or.inr (Or.inr (Or.inr (Or.inr (Or.inr (Or.inl
      ⟨a, req, u, app, rfl, rfl, hpar, hrepo, hid,
        by simp [latestAppRevisionServeHTTP, hu, hd, hpar, hrepo, hid]⟩))))))
  · cases hccp : env.currentAppRevision env.projectID app.id req.deploymentTargetID with
    | error e =>
        exact Or.inr (Or.inr (Or.inr (Or.inr (Or.inr (Or.inr (Or.inr (Or.inl
          ⟨a, req, u, app, e, rfl, rfl, hpar, hrepo, hid, hccp,
            by simp [latestAppRevisionServeHTTP, hu, hd, hpar, hrepo, hid, hccp]⟩)))))))
    | ok o =>
      cases o with
      | none =>
          exact Or.inr (Or.inr (Or.inr (Or.inr (Or.inr (Or.inr (Or.inr (Or.inr (Or.inl
            ⟨a, req, u, app, rfl, rfl, hpar, hrepo, hid, hccp,
              by simp [latestAppRevisionServeHTTP, hu, hd, hpar, hrepo, hid, hccp]⟩))))))))
      | some msg =>
        cases henc : env.encodedRevisionFromProto msg.appRevision with
        | error e =>
            exact Or.inr (Or.inr (Or.inr (Or.inr (Or.inr (Or.inr (Or.inr (Or.inr (Or.inr
              (Or.inl ⟨a, req, u, app, msg, e, rfl, rfl, hpar, hrepo, hid, hccp, henc,
                by simp [latestAppRevisionServeHTTP, hu, hd, hpar, hrepo, hid, hccp, henc]⟩)))))))))
        | ok enc =>
          cases hnot : env.readNotificationsByAppRevisionID enc.appInstanceID enc.id with
          | error e =>
              exact Or.inr (Or.inr (Or.inr (Or.inr (Or.inr (Or.inr (Or.inr (Or.inr (Or.inr
                (Or.inr (Or.inl ⟨a, req, u, app, msg, enc, e, rfl, rfl, hpar, hrepo, hid,
                  hccp, henc, hnot,
                  by simp [latestAppRevisionServeHTTP, hu, hd, hpar, hrepo, hid, hccp, henc,
                    hnot]⟩))))))))))
          | ok events =>
              exact Or.inr (Or.inr (Or.inr (Or.inr (Or.inr (Or.inr (Or.inr (Or.inr (Or.inr
                (Or.inr (Or.inr ⟨a, req, u, app, msg, enc, events, rfl, rfl, hpar, hrepo, hid,
                  hccp, henc, hnot,
                  by simp [latestAppRevisionServeHTTP, hu, hd, hpar, hrepo, hid, hccp, henc,
                    hnot]⟩))))))))))

/-- C3: for every successful GET /apps/{porter_app_name}/latest request, the
`app_revision` field of the response equals `EncodedRevisionFromProto`
applied to the `AppRevision` message returned by the cluster control plane's
`CurrentAppRevision` RPC for the project ID, the resolved app ID and the
request's deployment target ID; the handler never constructs or modifies
revision content itself: (1) with all dependencies succeeding, the response
carries exactly the encoder's output; (2) every success outcome arises this
way. -/
theorem latest_app_revision_passthrough :
    (∀ (env : LatestAppRevisionEnv) a req u app msg enc events,
      env.urlPorterAppName = .ok a → env.decodeRequest = some req →
      env.uuidParse req.deploymentTargetID = .ok u →
      env.readPorterAppsByProjectIDAndName env.projectID a = .ok [app] → app.id ≠ 0 →
      env.currentAppRevision env.projectID app.id req.deploymentTargetID = .ok (some msg) →
      env.encodedRevisionFromProto msg.appRevision = .ok enc →
      env.readNotificationsByAppRevisionID enc.appInstanceID enc.id = .ok events →
      latestAppRevisionServeHTTP env =
        (.success ⟨enc, collectNotifications env events⟩,
          [⟨.readPorterApps env.projectID a, none⟩,
           ⟨.ccpCurrentAppRevision env.projectID app.id req.deploymentTargetID, none⟩,
           ⟨.readNotifications enc.appInstanceID enc.id, none⟩])) ∧
    (∀ (env : LatestAppRevisionEnv) resp tr,
      latestAppRevisionServeHTTP env = (.success resp, tr) →
      ∃ a req app msg, env.urlPorterAppName = .ok a ∧ env.decodeRequest = some req ∧
        env.readPorterAppsByProjectIDAndName env.projectID a = .ok [app] ∧ app.id ≠ 0 ∧
        env.currentAppRevision env.projectID app.id req.deploymentTargetID = .ok (some msg) ∧
        env.encodedRevisionFromProto msg.appRevision = .ok resp.appRevision ∧
        (⟨.ccpCurrentAppRevision env.projectID app.id req.deploymentTargetID, none⟩ :
          CallRecord AppRevCall) ∈ tr) := by
  constructor
  · intro env a req u app msg enc events hu hd hpar hrepo hid hccp henc hnot
    simp [latestAppRevisionServeHTTP, hu, hd, hpar, hrepo, hid, hccp, henc, hnot]
  · intro env resp tr h
    rcases latestAppRevisionServeHTTP_cases env with
      ⟨e, hu, hout⟩ | ⟨hd, hout⟩ | ⟨a, req, e, hu, hd, hpar, hout⟩ |
      ⟨a, req, u, e, hu, hd, hpar, hrepo, hout⟩ |
      ⟨a, req, u, hu, hd, hpar, hrepo, hout⟩ |
      ⟨a, req, u, apps, hu, hd, hpar, hrepo, hlen, hout⟩ |
      ⟨a, req, u, app, hu, hd, hpar, hrepo, hid, hout⟩ |
      ⟨a, req, u, app, e, hu, hd, hpar, hrepo, hid, hccp, hout⟩ |
      ⟨a, req, u, app, hu, hd, hpar, hrepo, hid, hccp, hout⟩ |
      ⟨a, req, u, app, msg, e, hu, hd, hpar, hrepo, hid, hccp, henc, hout⟩ |
      ⟨a, req, u, app, msg, enc, e, hu, hd, hpar, hrepo, hid, hccp, henc, hnot, hout⟩ |
      ⟨a, req, u, app, msg, enc, events, hu, hd, hpar, hrepo, hid, hccp, henc, hnot, hout⟩ <;>
      rw [hout] at h <;> simp only [Prod.mk.injEq] at h
    · exact absurd h.1 (by simp)
    · exact absurd h.1 (by simp)
    · exact absurd h.1 (by simp)
    · exact absurd h.1 (by simp)
    · exact absurd h.1 (by simp)
    · exact absurd h.1 (by simp)
    · exact absurd h.1 (by simp)
    · exact absurd h.1 (by simp)
    · exact absurd h.1 (by simp)
    · exact absurd h.1 (by simp)
    · exact absurd h.1 (by simp)
    · obtain ⟨hb, htr⟩ := h
      cases hb
      exact ⟨a, req, app, msg, hu, hd, hrepo, hid, hccp, henc, by simp [← htr]⟩

/-- Environment used to witness the /latest handler theorems: every
dependency succeeds. -/
def appRevEnvAllOk : LatestAppRevisionEnv where
  projectID := 5
  clusterID := 6
  urlPorterAppName := .ok "my-app"
  decodeRequest := some ⟨"11111111-2222-3333-4444-555555555555"⟩
  uuidParse := fun _ => .ok ⟨[1, 2, 3]⟩
  readPorterAppsByProjectIDAndName := fun _ _ => .ok [⟨42, "my-app", "row"⟩]
  currentAppRevision := fun _ _ _ => .ok (some ⟨some ⟨⟨"my-app", "papp"⟩, "protorev"⟩⟩)
  encodedRevisionFromProto := fun _ => .ok ⟨"rev-1", "inst-1", "encoded"⟩
  readNotificationsByAppRevisionID := fun _ _ => .ok [⟨"ev1"⟩]
  notificationFromPorterAppEvent := fun _ => .ok (some ⟨"scope-app", "n1"⟩)

/-- Witness for C3 at a concrete all-successful request. -/
theorem latest_app_revision_passthrough_witness :
    latestAppRevisionServeHTTP appRevEnvAllOk =
      (.success ⟨⟨"rev-1", "inst-1", "encoded"⟩,
        collectNotifications appRevEnvAllOk [⟨"ev1"⟩]⟩,
        [⟨.readPorterApps 5 "my-app", none⟩,
         ⟨.ccpCurrentAppRevision 5 42 "11111111-2222-3333-4444-555555555555", none⟩,
         ⟨.readNotifications "inst-1" "rev-1", none⟩]) :=
  latest_app_revision_passthrough.1 appRevEnvAllOk "my-app"
    ⟨"11111111-2222-3333-4444-555555555555"⟩ ⟨[1, 2, 3]⟩ ⟨42, "my-app", "row"⟩
    ⟨some ⟨⟨"my-app", "papp"⟩, "protorev"⟩⟩ ⟨"rev-1", "inst-1", "encoded"⟩ [⟨"ev1"⟩]
    rfl rfl rfl rfl (by decide) rfl rfl rfl

/-- Whether a /latest handler downstream call is the cluster-control-plane
RPC. -/
def AppRevCall.isCcp : AppRevCall → Bool
  | .ccpCurrentAppRevision _ _ _ => true
  | _ => false

/-- C7: GET /apps/{porter_app_name}/latest responds with HTTP 400 unless the
repository returns exactly one porter app for the project ID and app name
(zero matches and more than one match both yield 400, as does a repository
error), and with HTTP 500 when that single app's ID is 0; the cluster
control plane is contacted exactly when one porter app with a nonzero ID is
found. -/
theorem latest_app_revision_single_app_gate (env : LatestAppRevisionEnv)
    (a : String) (req : LatestAppRevisionRequest) (u : GoUUID)
    (hu : env.urlPorterAppName = .ok a) (hd : env.decodeRequest = some req)
    (hpar : env.uuidParse req.deploymentTargetID = .ok u) :
    (∀ e, env.readPorterAppsByProjectIDAndName env.projectID a = .error e →
      (latestAppRevisionServeHTTP env).1.statusOf = some 400) ∧
    (∀ apps, env.readPorterAppsByProjectIDAndName env.projectID a = .ok apps →
      apps.length ≠ 1 → (latestAppRevisionServeHTTP env).1.statusOf = some 400) ∧
    (∀ app, env.readPorterAppsByProjectIDAndName env.projectID a = .ok [app] →
      app.id = 0 → (latestAppRevisionServeHTTP env).1.statusOf = some 500) ∧
    ((((latestAppRevisionServeHTTP env).2.any fun c => c.call.isCcp) = true) ↔
      (∃ app, env.readPorterAppsByProjectIDAndName env.projectID a = .ok [app] ∧
        app.id ≠ 0)) := by
  refine ⟨?_, ?_, ?_, ?_, ?_⟩
  · intro e he
    simp [latestAppRevisionServeHTTP, hu, hd, hpar, he, HandlerResult.statusOf]
  · intro apps hrepo hlen
    match apps, hrepo, hlen with
    | [], hrepo, _ =>
        simp [latestAppRevisionServeHTTP, hu, hd, hpar, hrepo, HandlerResult.statusOf]
    | [app], _, hlen => simp at hlen
    | a1 :: a2 :: t, hrepo, _ =>
        simp [latestAppRevisionServeHTTP, hu, hd, hpar, hrepo, HandlerResult.statusOf]
  · intro app hrepo hid
    simp [latestAppRevisionServeHTTP, hu, hd, hpar, hrepo, hid, HandlerResult.statusOf]
  · intro hany
    rcases latestAppRevisionServeHTTP_cases env with
      ⟨e, hu2, hout⟩ | ⟨hd2, hout⟩ | ⟨a2, req2, e, hu2, hd2, hpar2, hout⟩ |
      ⟨a2, req2, u2, e, hu2, hd2, hpar2, hrepo2, hout⟩ |
      ⟨a2, req2, u2, hu2, hd2, hpar2, hrepo2, hout⟩ |
      ⟨a2, req2, u2, apps2, hu2, hd2, hpar2, hrepo2, hlen2, hout⟩ |
      ⟨a2, req2, u2, app2, hu2, hd2, hpar2, hrepo2, hid2, hout⟩ |
      ⟨a2, req2, u2, app2, e, hu2, hd2, hpar2, hrepo2, hid2, hccp2, hout⟩ |
      ⟨a2, req2, u2, app2, hu2, hd2, hpar2, hrepo2, hid2, hccp2, hout⟩ |
      ⟨a2, req2, u2, app2, msg2, e, hu2, hd2, hpar2, hrepo2, hid2, hccp2, henc2, hout⟩ |
      ⟨a2, req2, u2, app2, msg2, enc2, e, hu2, hd2, hpar2, hrepo2, hid2, hccp2, henc2,
        hnot2, hout⟩ |
      ⟨a2, req2, u2, app2, msg2, enc2, events2, hu2, hd2, hpar2, hrepo2, hid2, hccp2, henc2,
        hnot2, hout⟩ <;>
      rw [hout] at hany <;>
      simp only [List.any_cons, List.any_nil, AppRevCall.isCcp, Bool.or_false,
        Bool.false_or, Bool.or_true, Bool.true_or] at hany
    case _ => exact absurd hany (by simp)
    case _ => exact absurd hany (by simp)
    case _ => exact absurd hany (by simp)
    case _ => exact absurd hany (by simp)
    case _ => exact absurd hany (by simp)
    case _ => exact absurd hany (by simp)
    case _ => exact absurd hany (by simp)
    all_goals rw [hu] at hu2
    all_goals injection hu2 with ha
    all_goals subst ha
    · exact ⟨app2, hrepo2, hid2⟩
    · exact ⟨app2, hrepo2, hid2⟩
    · exact ⟨app2, hrepo2, hid2⟩
    · exact ⟨app2, hrepo2, hid2⟩
    · exact ⟨app2, hrepo2, hid2⟩
  · rintro ⟨app, hrepo, hid⟩
    cases hccp : env.currentAppRevision env.projectID app.id req.deploymentTargetID with
    | error e =>
        simp [latestAppRevisionServeHTTP, hu, hd, hpar, hrepo, hid, hccp, AppRevCall.isCcp]
    | ok o =>
      cases o with
      | none =>
          simp [latestAppRevisionServeHTTP, hu, hd, hpar, hrepo, hid, hccp, AppRevCall.isCcp]
      | some msg =>
        cases henc : env.encodedRevisionFromProto msg.appRevision with
        | error e =>
            simp [latestAppRevisionServeHTTP, hu, hd, hpar, hrepo, hid, hccp, henc,
              AppRevCall.isCcp]
        | ok enc =>
          cases hnot : env.readNotificationsByAppRevisionID enc.appInstanceID enc.id with
          | error e =>
              simp [latestAppRevisionServeHTTP, hu, hd, hpar, hrepo, hid, hccp, henc, hnot,
                AppRevCall.isCcp]
          | ok events =>
              simp [latestAppRevisionServeHTTP, hu, hd, hpar, hrepo, hid, hccp, henc, hnot,
                AppRevCall.isCcp]

/-- Environment used to witness the single-app gate: the repository returns
two porter apps with the requested name. -/
def appRevEnvTwoApps : LatestAppRevisionEnv :=
  { appRevEnvAllOk with
    readPorterAppsByProjectIDAndName :=
      fun _ _ => .ok [⟨42, "my-app", "row"⟩, ⟨43, "my-app", "row2"⟩] }

/-- Witness for C7: with two repository matches the handler responds 400. -/
theorem latest_app_revision_single_app_gate_witness :
    (latestAppRevisionServeHTTP appRevEnvTwoApps).1.statusOf = some 400 :=
  (latest_app_revision_single_app_gate appRevEnvTwoApps "my-app"
      ⟨"11111111-2222-3333-4444-555555555555"⟩ ⟨[1, 2, 3]⟩ rfl rfl rfl).2.1
    [⟨42, "my-app", "row"⟩, ⟨43, "my-app", "row2"⟩] rfl (by decide)

/-- Every notification collected by the loop has a non-empty scope. -/
theorem collectNotifications_scope_ne (env : LatestAppRevisionEnv)
    (events : List PorterAppEvent) :
    ∀ n ∈ collectNotifications env events, n.scope ≠ "" := by
  suffices h : ∀ acc, (∀ n ∈ acc, n.scope ≠ "") →
      ∀ n ∈ events.foldl (fun acc event =>
        match env.notificationFromPorterAppEvent event with
        | .error _ => acc
        | .ok none => acc
        | .ok (some notification) =>
            if notification.scope = "" then acc else acc ++ [notification]) acc,
        n.scope ≠ "" by
    exact h [] (by simp)
  induction events with
  | nil => intro acc hacc; simpa using hacc
  | cons ev rest ih =>
    intro acc hacc
    simp only [List.foldl_cons]
    apply ih
    cases hconv : env.notificationFromPorterAppEvent ev with
    | error e => simpa [hconv] using hacc
    | ok o =>
      cases o with
      | none => simpa [hconv] using hacc
      | some n =>
        by_cases hscope : n.scope = ""
        · simpa [hconv, hscope] using hacc
        · intro m hm
          simp only [hconv, if_neg hscope, List.mem_append, List.mem_singleton] at hm
          rcases hm with hm | rfl
          · exact hacc m hm
          · exact hscope

/-- If no event converts to a notification with a non-empty scope, the loop
collects nothing. -/
theorem collectNotifications_empty (env : LatestAppRevisionEnv)
    (events : List PorterAppEvent)
    (h : ∀ ev ∈ events, ∀ n, env.notificationFromPorterAppEvent ev = .ok (some n) →
      n.scope = "") :
    collectNotifications env events = [] := by
  suffices hs : ∀ acc, (∀ ev ∈ events, ∀ n,
      env.notificationFromPorterAppEvent ev = .ok (some n) → n.scope = "") →
      events.foldl (fun acc event =>
        match env.notificationFromPorterAppEvent event with
        | .error _ => acc
        | .ok none => acc
        | .ok (some notification) =>
            if notification.scope = "" then acc else acc ++ [notification]) acc = acc by
    exact hs [] h
  induction events with
  | nil => intro acc _; simp
  | cons ev rest ih =>
    intro acc hacc
    simp only [List.foldl_cons]
    have hstep : (match env.notificationFromPorterAppEvent ev with
        | .error _ => acc
        | .ok none => acc
        | .ok (some notification) =>
            if notification.scope = "" then acc else acc ++ [notification]) = acc := by
      cases hconv : env.notificationFromPorterAppEvent ev with
      | error e => rfl
      | ok o =>
        cases o with
        | none => rfl
        | some n => simp [hacc ev (by simp) n hconv]
    rw [hstep]
    exact ih (fun e he n hn => hacc e (List.mem_cons_of_mem ev he) n hn) acc
      (fun e he n hn => hacc e (List.mem_cons_of_mem ev he) n hn)

/-- C8: every notification included in a successful
GET /apps/{porter_app_name}/latest response has a non-empty scope; events
that fail conversion, convert to nil, or carry an empty scope are silently
skipped rather than failing the request (the outcome is a success whatever
the conversion oracle returns), and the notifications field is a list that
is empty when no event qualifies. -/
theorem latest_app_revision_notifications :
    (∀ (env : LatestAppRevisionEnv) resp tr,
      latestAppRevisionServeHTTP env = (.success resp, tr) →
      ∀ n ∈ resp.notifications, n.scope ≠ "") ∧
    (∀ (env : LatestAppRevisionEnv) a req u app msg enc events,
      env.urlPorterAppName = .ok a → env.decodeRequest = some req →
      env.uuidParse req.deploymentTargetID = .ok u →
      env.readPorterAppsByProjectIDAndName env.projectID a = .ok [app] → app.id ≠ 0 →
      env.currentAppRevision env.projectID app.id req.deploymentTargetID = .ok (some msg) →
      env.encodedRevisionFromProto msg.appRevision = .ok enc →
      env.readNotificationsByAppRevisionID enc.appInstanceID enc.id = .ok events →
      (latestAppRevisionServeHTTP env).1 =
        .success ⟨enc, collectNotifications env events⟩) ∧
    (∀ (env : LatestAppRevisionEnv) events,
      (∀ ev ∈ events, ∀ n, env.notificationFromPorterAppEvent ev = .ok (some n) →
        n.scope = "") →
      collectNotifications env events = []) := by
  refine ⟨?_, ?_, ?_⟩
  · intro env resp tr h
    rcases latestAppRevisionServeHTTP_cases env with
      ⟨e, hu, hout⟩ | ⟨hd, hout⟩ | ⟨a, req, e, hu, hd, hpar, hout⟩ |
      ⟨a, req, u, e, hu, hd, hpar, hrepo, hout⟩ |
      ⟨a, req, u, hu, hd, hpar, hrepo, hout⟩ |
      ⟨a, req, u, apps, hu, hd, hpar, hrepo, hlen, hout⟩ |
      ⟨a, req, u, app, hu, hd, hpar, hrepo, hid, hout⟩ |
      ⟨a, req, u, app, e, hu, hd, hpar, hrepo, hid, hccp, hout⟩ |
      ⟨a, req, u, app, hu, hd, hpar, hrepo, hid, hccp, hout⟩ |
      ⟨a, req, u, app, msg, e, hu, hd, hpar, hrepo, hid, hccp, henc, hout⟩ |
      ⟨a, req, u, app, msg, enc, e, hu, hd, hpar, hrepo, hid, hccp, henc, hnot, hout⟩ |
      ⟨a, req, u, app, msg, enc, events, hu, hd, hpar, hrepo, hid, hccp, henc, hnot, hout⟩ <;>
      rw [hout] at h <;> simp only [Prod.mk.injEq] at h
    · exact absurd h.1 (by simp)
    · exact absurd h.1 (by simp)
    · exact absurd h.1 (by simp)
    · exact absurd h.1 (by simp)
    · exact absurd h.1 (by simp)
    · exact absurd h.1 (by simp)
    · exact absurd h.1 (by simp)
    · exact absurd h.1 (by simp)
    · exact absurd h.1 (by simp)
    · exact absurd h.1 (by simp)
    · exact absurd h.1 (by simp)
    · obtain ⟨hb, htr⟩ := h
      cases hb
      exact collectNotifications_scope_ne env events
  · intro env a req u app msg enc events hu hd hpar hrepo hid hccp henc hnot
    simp [latestAppRevisionServeHTTP, hu, hd, hpar, hrepo, hid, hccp, henc, hnot]
  · exact collectNotifications_empty

/-- Environment used to witness the notifications theorem: the four events
exercise conversion failure, nil conversion, the legacy empty-scope format
and a current notification. -/
def appRevEnvMixedNotifs : LatestAppRevisionEnv :=
  { appRevEnvAllOk with
    readNotificationsByAppRevisionID :=
      fun _ _ => .ok [⟨"bad"⟩, ⟨"nilconv"⟩, ⟨"oldformat"⟩, ⟨"good"⟩]
    notificationFromPorterAppEvent := fun ev =>
      if ev.content = "bad" then .error (.mk "conversion failed" none)
      else if ev.content = "nilconv" then .ok none
      else if ev.content = "oldformat" then .ok (some ⟨"", "old"⟩)
      else .ok (some ⟨"app-scope", "good-notif"⟩) }

/-- Witness for C8: with one failing, one nil, one empty-scope and one valid
event the request still succeeds and only the valid notification appears. -/
theorem latest_app_revision_notifications_witness :
    (latestAppRevisionServeHTTP appRevEnvMixedNotifs).1 =
      .success ⟨⟨"rev-1", "inst-1", "encoded"⟩, [⟨"app-scope", "good-notif"⟩]⟩ :=
  (latest_app_revision_notifications.2.1 appRevEnvMixedNotifs "my-app"
      ⟨"11111111-2222-3333-4444-555555555555"⟩ ⟨[1, 2, 3]⟩ ⟨42, "my-app", "row"⟩
      ⟨some ⟨⟨"my-app", "papp"⟩, "protorev"⟩⟩ ⟨"rev-1", "inst-1", "encoded"⟩
      [⟨"bad"⟩, ⟨"nilconv"⟩, ⟨"oldformat"⟩, ⟨"good"⟩]
      rfl rfl rfl rfl (by decide) rfl rfl rfl).trans (by rfl)

/-- Exhaustive description of `latestAppRevisionsServeHTTP` up to the loop:
the six paths of latest_app_revisions.go before and including handing over
to `buildRevisions`. -/
theorem latestAppRevisionsServeHTTP_cases (env : LatestAppRevisionsEnv) :
    (env.decodeRequest = none ∧
      latestAppRevisionsServeHTTP env =
        (.apiError 400 (telemetryError none "error decoding request"), [])) ∨
    (∃ req e, env.decodeRequest = some req ∧
      env.uuidParse req.deploymentTargetID = .error e ∧
      latestAppRevisionsServeHTTP env =
        (.apiError 400 (telemetryError (some e) "error parsing deployment target id"), [])) ∨
    (∃ req, env.decodeRequest = some req ∧
      env.uuidParse req.deploymentTargetID = .ok uuidNil ∧
      latestAppRevisionsServeHTTP env =
        (.apiError 400 (telemetryError none "deployment target id is nil"), [])) ∨
    (∃ req u e, env.decodeRequest = some req ∧
      env.uuidParse req.deploymentTargetID = .ok u ∧ u ≠ uuidNil ∧
      env.latestAppRevisions env.projectID (env.uuidString u) = .error e ∧
      latestAppRevisionsServeHTTP env =
        (.apiError 500 (telemetryError (some e) "error getting latest app revisions"),
          [⟨.ccpLatestAppRevisions env.projectID (env.uuidString u), some e⟩])) ∨
    (∃ req u, env.decodeRequest = some req ∧
      env.uuidParse req.deploymentTargetID = .ok u ∧ u ≠ uuidNil ∧
      env.latestAppRevisions env.projectID (env.uuidString u) = .ok none ∧
      latestAppRevisionsServeHTTP env =
        (.apiError 500 (telemetryError none "latest app revisions response is nil"),
          [⟨.ccpLatestAppRevisions env.projectID (env.uuidString u), none⟩])) ∨
    (∃ req u msg, env.decodeRequest = some req ∧
      env.uuidParse req.deploymentTargetID = .ok u ∧ u ≠ uuidNil ∧
      env.latestAppRevisions env.projectID (env.uuidString u) = .ok (some msg) ∧
      latestAppRevisionsServeHTTP env =
        buildRevisions env (msg.appRevisions.getD []) []
          [⟨.ccpLatestAppRevisions env.projectID (env.uuidString u), none⟩]) := by
  cases hd : env.decodeRequest with
  | none => exact Or.inl ⟨rfl, by simp [latestAppRevisionsServeHTTP, hd]⟩
  | some req =>
  cases hpar : env.uuidParse req.deploymentTargetID with
  | error e =>
      exact Or.inr (Or.inl ⟨req, e, rfl, hpar,
        by simp [latestAppRevisionsServeHTTP, hd, hpar]⟩)
  | ok u =>
  by_cases hnil : u = uuidNil
  · subst hnil
    exact Or.inr (Or.inr (Or.inl ⟨req, rfl, hpar,
      by simp [latestAppRevisionsServeHTTP, hd, hpar]⟩))
  · cases hccp : env.latestAppRevisions env.projectID (env.uuidString u) with
    | error e =>
        exact Or.inr (Or.inr (Or.inr (Or.inl ⟨req, u, e, rfl, hpar, hnil, hccp,
          by simp [latestAppRevisionsServeHTTP, hd, hpar, hnil, hccp]⟩)))
    | ok o =>
      cases o with
      | none =>
          exact Or.inr (Or.inr (Or.inr (Or.inr (Or.inl ⟨req, u, rfl, hpar, hnil, hccp,
            by simp [latestAppRevisionsServeHTTP, hd, hpar, hnil, hccp]⟩))))
      | some msg =>
          exact Or.inr (Or.inr (Or.inr (Or.inr (Or.inr ⟨req, u, msg, rfl, hpar, hnil, hccp,
            by simp [latestAppRevisionsServeHTTP, hd, hpar, hnil, hccp]⟩))))

/-- The relation between a proto revision and the response entry built from
it: the entry's revision is the encoder's output and its source is the
porter app read by the revision's app name, converted to the API type. -/
def revisionEntryMatches (env : LatestAppRevisionsEnv) (r : ProtoAppRevision)
    (entry : LatestRevisionWithSource) : Prop :=
  env.encodedRevisionFromProto (some r) = .ok entry.appRevision ∧
  ∃ pa, env.readPorterAppByName env.clusterID r.app.name = .ok (some pa) ∧
    entry.source = env.toPorterAppType pa

/-- A successful `buildRevisions` run appends one matching entry per proto
revision, in order, and only successful call records to the trace. -/
theorem buildRevisions_success_spec (env : LatestAppRevisionsEnv)
    (revs : List ProtoAppRevision) :
    ∀ acc tr resp tr2, buildRevisions env revs acc tr = (.success resp, tr2) →
      ∃ entries recs, resp.appRevisions = acc ++ entries ∧ tr2 = tr ++ recs ∧
        List.Forall₂ (revisionEntryMatches env) revs entries ∧
        ∀ c ∈ recs, c.err = none := by
  induction revs with
  | nil =>
    intro acc tr resp tr2 h
    simp only [buildRevisions, Prod.mk.injEq] at h
    obtain ⟨hb, htr⟩ := h
    cases hb
    exact ⟨[], [], by simp, by simp [htr], List.Forall₂.nil, by simp⟩
  | cons revision rest ih =>
    intro acc tr resp tr2 h
    simp only [buildRevisions] at h
    cases henc : env.encodedRevisionFromProto (some revision) with
    | error e => rw [henc] at h; exact absurd (congrArg Prod.fst h) (by simp)
    | ok enc =>
      rw [henc] at h
      cases hread : env.readPorterAppByName env.clusterID revision.app.name with
      | error e => rw [hread] at h; exact absurd (congrArg Prod.fst h) (by simp)
      | ok o =>
        cases o with
        | none => rw [hread] at h; exact absurd (congrArg Prod.fst h) (by simp)
        | some pa =>
          rw [hread] at h
          obtain ⟨entries, recs, hresp, htr2, hall, herr⟩ :=
            ih (acc ++ [⟨enc, env.toPorterAppType pa⟩])
              (tr ++ [⟨.readPorterAppByName env.clusterID revision.app.name, none⟩]) resp tr2 h
          refine ⟨⟨enc, env.toPorterAppType pa⟩ :: entries,
            ⟨.readPorterAppByName env.clusterID revision.app.name, none⟩ :: recs,
            by simpa using hresp, by simpa using htr2,
            List.Forall₂.cons ⟨henc, pa, hread, rfl⟩ hall, ?_⟩
          intro c hc
          rcases List.mem_cons.mp hc with rfl | hc
          · rfl
          · exact herr c hc

/-- Loop `buildRevisions` only ever appends to the incoming trace. -/
theorem buildRevisions_trace_mono (env : LatestAppRevisionsEnv)
    (revs : List ProtoAppRevision) :
    ∀ acc tr out tr2, buildRevisions env revs acc tr = (out, tr2) →
      ∃ ext, tr2 = tr ++ ext := by
  induction revs with
  | nil =>
    intro acc tr out tr2 h
    simp only [buildRevisions, Prod.mk.injEq] at h
    exact ⟨[], by simp [h.2]⟩
  | cons revision rest ih =>
    intro acc tr out tr2 h
    simp only [buildRevisions] at h
    cases henc : env.encodedRevisionFromProto (some revision) with
    | error e =>
        rw [henc] at h
        exact ⟨[], by simp [(Prod.mk.injEq .. ▸ h).2.symm]⟩
    | ok enc =>
      rw [henc] at h
      cases hread : env.readPorterAppByName env.clusterID revision.app.name with
      | error e =>
          rw [hread] at h
          exact ⟨[⟨.readPorterAppByName env.clusterID revision.app.name, some e⟩],
            (Prod.mk.injEq .. ▸ h).2.symm⟩
      | ok o =>
        cases o with
        | none =>
            rw [hread] at h
            exact ⟨[⟨.readPorterAppByName env.clusterID revision.app.name, none⟩],
              (Prod.mk.injEq .. ▸ h).2.symm⟩
        | some pa =>
            rw [hread] at h
            obtain ⟨ext, hext⟩ := ih _ _ _ _ h
            exact ⟨⟨.readPorterAppByName env.clusterID revision.app.name, none⟩ :: ext,
              by simpa using hext⟩

/-- If a call record with an error appears in the trace of a `buildRevisions`
run started from an error-free trace, the run aborted with a 500 wrapping
exactly that error. -/
theorem buildRevisions_failed_call (env : LatestAppRevisionsEnv)
    (revs : List ProtoAppRevision) :
    ∀ acc tr out tr2, (∀ c ∈ tr, c.err = none) →
      buildRevisions env revs acc tr = (out, tr2) →
      ∀ c e, (⟨c, some e⟩ : CallRecord RevsCall) ∈ tr2 →
        out = .apiError 500 (telemetryError (some e) "error reading porter app") := by
  induction revs with
  | nil =>
    intro acc tr out tr2 hclean h c e hmem
    simp only [buildRevisions, Prod.mk.injEq] at h
    rw [← h.2] at hmem
    simpa using hclean _ hmem
  | cons revision rest ih =>
    intro acc tr out tr2 hclean h c e hmem
    simp only [buildRevisions] at h
    cases henc : env.encodedRevisionFromProto (some revision) with
    | error e0 =>
        rw [henc] at h
        obtain ⟨hout, htr⟩ := Prod.mk.injEq .. ▸ h
        rw [← htr] at hmem
        simpa using hclean _ hmem
    | ok enc =>
      rw [henc] at h
      cases hread : env.readPorterAppByName env.clusterID revision.app.name with
      | error e0 =>
          rw [hread] at h
          obtain ⟨hout, htr⟩ := Prod.mk.injEq .. ▸ h
          rw [← htr] at hmem
          rcases List.mem_append.mp hmem with hmem | hmem
          · simpa using hclean _ hmem
          · simp only [List.mem_singleton, CallRecord.mk.injEq, Option.some.injEq] at hmem
            rw [← hout, hmem.2]
      | ok o =>
        cases o with
        | none =>
            rw [hread] at h
            obtain ⟨hout, htr⟩ := Prod.mk.injEq .. ▸ h
            rw [← htr] at hmem
            rcases List.mem_append.mp hmem with hmem | hmem
            · simpa using hclean _ hmem
            · simp at hmem
        | some pa =>
            rw [hread] at h
            refine ih _ _ _ _ ?_ h c e hmem
            intro c hc
            rcases List.mem_append.mp hc with hc | hc
            · exact hclean _ hc
            · simp only [List.mem_singleton] at hc
              rw [hc]

/-- Started from an error-free trace, `buildRevisions` leaves every trace
entry but possibly the last error-free: it never continues past a failed
call. -/
theorem buildRevisions_dropLast_ok (env : LatestAppRevisionsEnv)
    (revs : List ProtoAppRevision) :
    ∀ acc tr out tr2, (∀ c ∈ tr, c.err = none) →
      buildRevisions env revs acc tr = (out, tr2) →
      ∀ c ∈ tr2.dropLast, c.err = none := by
  induction revs with
  | nil =>
    intro acc tr out tr2 hclean h c hmem
    simp only [buildRevisions, Prod.mk.injEq] at h
    rw [← h.2] at hmem
    exact hclean _ (List.dropLast_subset _ hmem)
  | cons revision rest ih =>
    intro acc tr out tr2 hclean h c hmem
    simp only [buildRevisions] at h
    cases henc : env.encodedRevisionFromProto (some revision) with
    | error e0 =>
        rw [henc] at h
        obtain ⟨hout, htr⟩ := Prod.mk.injEq .. ▸ h
        rw [← htr] at hmem
        exact hclean _ (List.dropLast_subset _ hmem)
    | ok enc =>
      rw [henc] at h
      cases hread : env.readPorterAppByName env.clusterID revision.app.name with
      | error e0 =>
          rw [hread] at h
          obtain ⟨hout, htr⟩ := Prod.mk.injEq .. ▸ h
          rw [← htr, List.dropLast_concat] at hmem
          exact hclean _ hmem
      | ok o =>
        cases o with
        | none =>
            rw [hread] at h
            obtain ⟨hout, htr⟩ := Prod.mk.injEq .. ▸ h
            rw [← htr, List.dropLast_concat] at hmem
            exact hclean _ hmem
        | some pa =>
            rw [hread] at h
            refine ih _ _ _ _ ?_ h c hmem
            intro c hc
            rcases List.mem_append.mp hc with hc | hc
            · exact hclean _ hc
            · simp only [List.mem_singleton] at hc
              rw [hc]

/-- C4: for every successful GET /apps/revisions request, the response
contains exactly one entry per revision in the control plane's
`LatestAppRevisions` response and in the same order; each entry's
`app_revision` is `EncodedRevisionFromProto` of the proto revision and its
`source` is the porter app read by that revision's app name on the current
cluster; when the control plane returns a nil revision list the response's
`app_revisions` is the empty list. -/
theorem latest_app_revisions_response :
    (∀ (env : LatestAppRevisionsEnv) resp tr,
      latestAppRevisionsServeHTTP env = (.success resp, tr) →
      ∃ req u msg, env.decodeRequest = some req ∧
        env.uuidParse req.deploymentTargetID = .ok u ∧ u ≠ uuidNil ∧
        env.latestAppRevisions env.projectID (env.uuidString u) = .ok (some msg) ∧
        List.Forall₂ (revisionEntryMatches env) (msg.appRevisions.getD [])
          resp.appRevisions) ∧
    (∀ (env : LatestAppRevisionsEnv) req u msg, env.decodeRequest = some req →
      env.uuidParse req.deploymentTargetID = .ok u → u ≠ uuidNil →
      env.latestAppRevisions env.projectID (env.uuidString u) = .ok (some msg) →
      msg.appRevisions = none →
      latestAppRevisionsServeHTTP env = (.success ⟨[]⟩,
        [⟨.ccpLatestAppRevisions env.projectID (env.uuidString u), none⟩])) := by
  constructor
  · intro env resp tr h
    rcases latestAppRevisionsServeHTTP_cases env with
      ⟨hd, hout⟩ | ⟨req, e, hd, hpar, hout⟩ | ⟨req, hd, hpar, hout⟩ |
      ⟨req, u, e, hd, hpar, hnil, hccp, hout⟩ | ⟨req, u, hd, hpar, hnil, hccp, hout⟩ |
      ⟨req, u, msg, hd, hpar, hnil, hccp, hout⟩
    · rw [hout] at h; exact absurd (congrArg Prod.fst h) (by simp)
    · rw [hout] at h; exact absurd (congrArg Prod.fst h) (by simp)
    · rw [hout] at h; exact absurd (congrArg Prod.fst h) (by simp)
    · rw [hout] at h; exact absurd (congrArg Prod.fst h) (by simp)
    · rw [hout] at h; exact absurd (congrArg Prod.fst h) (by simp)
    · rw [hout] at h
      obtain ⟨entries, recs, hresp, htr2, hall, herr⟩ :=
        buildRevisions_success_spec env (msg.appRevisions.getD []) _ _ _ _ h
      refine ⟨req, u, msg, hd, hpar, hnil, hccp, ?_⟩
      rw [hresp]
      simpa using hall
  · intro env req u msg hd hpar hnil hccp hnone
    simp [latestAppRevisionsServeHTTP, hd, hpar, hnil, hccp, hnone, buildRevisions]

/-- Environment used to witness the /apps/revisions theorems: the control
plane returns a nil revision list. -/
def revsEnvNilList : LatestAppRevisionsEnv where
  projectID := 7
  clusterID := 8
  decodeRequest := some ⟨"22222222-3333-4444-5555-666666666666"⟩
  uuidParse := fun _ => .ok ⟨[9, 9]⟩
  uuidString := fun _ => "22222222-3333-4444-5555-666666666666"
  latestAppRevisions := fun _ _ => .ok (some ⟨none⟩)
  encodedRevisionFromProto := fun _ => .ok ⟨"rev-2", "inst-2", "encoded"⟩
  readPorterAppByName := fun _ _ => .ok (some ⟨44, "other-app", "row"⟩)
  toPorterAppType := fun pa => ⟨pa.name⟩

/-- Witness for C4: a nil revision list from the control plane yields the
empty (non-null) `app_revisions` list. -/
theorem latest_app_revisions_response_witness :
    latestAppRevisionsServeHTTP revsEnvNilList = (.success ⟨[]⟩,
      [⟨.ccpLatestAppRevisions 7 "22222222-3333-4444-5555-666666666666", none⟩]) :=
  latest_app_revisions_response.2 revsEnvNilList
    ⟨"22222222-3333-4444-5555-666666666666"⟩ ⟨[9, 9]⟩ ⟨none⟩
    rfl rfl (by decide) rfl rfl

/-- Whether an /apps/revisions downstream call is the cluster-control-plane
RPC. -/
def RevsCall.isCcp : RevsCall → Bool
  | .ccpLatestAppRevisions _ _ => true
  | _ => false

/-- C6: GET /apps/revisions responds with HTTP 400 before making any
control-plane call if and only if the request fails to decode or its
`deployment_target_id` either does not parse as a UUID or parses to the nil
UUID. -/
theorem latest_app_revisions_early_400_iff (env : LatestAppRevisionsEnv) :
    ((latestAppRevisionsServeHTTP env).1.statusOf = some 400 ∧
      ((latestAppRevisionsServeHTTP env).2.any fun c => c.call.isCcp) = false) ↔
    (env.decodeRequest = none ∨ ∃ req, env.decodeRequest = some req ∧
      ((∃ e, env.uuidParse req.deploymentTargetID = .error e) ∨
        env.uuidParse req.deploymentTargetID = .ok uuidNil)) := by
  constructor
  · rintro ⟨hstatus, hany⟩
    rcases latestAppRevisionsServeHTTP_cases env with
      ⟨hd, hout⟩ | ⟨req, e, hd, hpar, hout⟩ | ⟨req, hd, hpar, hout⟩ |
      ⟨req, u, e, hd, hpar, hnil, hccp, hout⟩ | ⟨req, u, hd, hpar, hnil, hccp, hout⟩ |
      ⟨req, u, msg, hd, hpar, hnil, hccp, hout⟩
    · exact Or.inl hd
    · exact Or.inr ⟨req, hd, Or.inl ⟨e, hpar⟩⟩
    · exact Or.inr ⟨req, hd, Or.inr hpar⟩
    · rw [hout] at hstatus; simp [HandlerResult.statusOf] at hstatus
    · rw [hout] at hstatus; simp [HandlerResult.statusOf] at hstatus
    · obtain ⟨ext, hext⟩ :=
        buildRevisions_trace_mono env (msg.appRevisions.getD []) []
          [⟨.ccpLatestAppRevisions env.projectID (env.uuidString u), none⟩]
          (latestAppRevisionsServeHTTP env).1 (latestAppRevisionsServeHTTP env).2
          (by rw [← hout])
      rw [hext] at hany
      simp [RevsCall.isCcp] at hany
  · intro h
    rcases h with hd | ⟨req, hd, ⟨e, hpar⟩ | hpar⟩
    · constructor
      · simp [latestAppRevisionsServeHTTP, hd, HandlerResult.statusOf]
      · simp [latestAppRevisionsServeHTTP, hd]
    · constructor
      · simp [latestAppRevisionsServeHTTP, hd, hpar, HandlerResult.statusOf]
      · simp [latestAppRevisionsServeHTTP, hd, hpar]
    · constructor
      · simp [latestAppRevisionsServeHTTP, hd, hpar, HandlerResult.statusOf]
      · simp [latestAppRevisionsServeHTTP, hd, hpar]

/-- Environment used to witness the early-400 theorem: the deployment target
id parses to the nil UUID. -/
def revsEnvNilUuid : LatestAppRevisionsEnv :=
  { revsEnvNilList with
    decodeRequest := some ⟨"00000000-0000-0000-0000-000000000000"⟩
    uuidParse := fun _ => .ok uuidNil }

/-- Witness for C6: the nil UUID yields a 400 with no control-plane call. -/
theorem latest_app_revisions_early_400_iff_witness :
    (latestAppRevisionsServeHTTP revsEnvNilUuid).1.statusOf = some 400 ∧
      ((latestAppRevisionsServeHTTP revsEnvNilUuid).2.any fun c => c.call.isCcp) = false :=
  (latest_app_revisions_early_400_iff revsEnvNilUuid).mpr
    (Or.inr ⟨⟨"00000000-0000-0000-0000-000000000000"⟩, rfl, Or.inr rfl⟩)

/-- C1: for every handler in the excerpt, whenever a downstream call returns
an error the handler passes that upstream error through to the client as an
HTTP error status (400 or 500) and writes no success result, and it never
retries or attempts recovery: for each of the three handlers, (i) a success
outcome implies every downstream call succeeded, (ii) a failed downstream
call yields a 400/500 outcome whose client error wraps exactly the upstream
error, and (iii) no downstream call is ever made after a failed one (only
the last trace entry can carry an error). -/
theorem handlers_pass_through_errors :
    ((∀ (env : PodStatusEnv) b tr, podStatusServeHTTP env = (.success b, tr) →
      ∀ c ∈ tr, c.err = none) ∧
     (∀ (env : PodStatusEnv) c e,
      (⟨c, some e⟩ : CallRecord PodCall) ∈ (podStatusServeHTTP env).2 →
      ((podStatusServeHTTP env).1.statusOf = some 400 ∨
        (podStatusServeHTTP env).1.statusOf = some 500) ∧
      ((podStatusServeHTTP env).1.errOf.bind GoErr.causeOf) = some e) ∧
     (∀ (env : PodStatusEnv), ∀ c ∈ (podStatusServeHTTP env).2.dropLast, c.err = none)) ∧
    ((∀ (env : LatestAppRevisionEnv) b tr, latestAppRevisionServeHTTP env = (.success b, tr) →
      ∀ c ∈ tr, c.err = none) ∧
     (∀ (env : LatestAppRevisionEnv) c e,
      (⟨c, some e⟩ : CallRecord AppRevCall) ∈ (latestAppRevisionServeHTTP env).2 →
      ((latestAppRevisionServeHTTP env).1.statusOf = some 400 ∨
        (latestAppRevisionServeHTTP env).1.statusOf = some 500) ∧
      ((latestAppRevisionServeHTTP env).1.errOf.bind GoErr.causeOf) = some e) ∧
     (∀ (env : LatestAppRevisionEnv),
      ∀ c ∈ (latestAppRevisionServeHTTP env).2.dropLast, c.err = none)) ∧
    ((∀ (env : LatestAppRevisionsEnv) b tr, latestAppRevisionsServeHTTP env = (.success b, tr) →
      ∀ c ∈ tr, c.err = none) ∧
     (∀ (env : LatestAppRevisionsEnv) c e,
      (⟨c, some e⟩ : CallRecord RevsCall) ∈ (latestAppRevisionsServeHTTP env).2 →
      ((latestAppRevisionsServeHTTP env).1.statusOf = some 400 ∨
        (latestAppRevisionsServeHTTP env).1.statusOf = some 500) ∧
      ((latestAppRevisionsServeHTTP env).1.errOf.bind GoErr.causeOf) = some e) ∧
     (∀ (env : LatestAppRevisionsEnv),
      ∀ c ∈ (latestAppRevisionsServeHTTP env).2.dropLast, c.err = none)) := by
  refine ⟨⟨?_, ?_, ?_⟩, ⟨?_, ?_, ?_⟩, ⟨?_, ?_, ?_⟩⟩
  · -- pod status, success implies clean trace
    intro env b tr h c hc
    rcases podStatusServeHTTP_cases env with
      ⟨hd, hout⟩ | ⟨req, e, hd, hu, hout⟩ | ⟨req, a, hd, hu, hdt, hout⟩ |
      ⟨req, a, e, hd, hu, hdt, hres, hout⟩ | ⟨req, a, dt, e, hd, hu, hdt, hres, hag, hout⟩ |
      ⟨req, a, dt, e, hd, hu, hdt, hres, hag, hpods, hout⟩ |
      ⟨req, a, dt, pl, hd, hu, hdt, hres, hag, hpods, hout⟩ <;> rw [hout] at h
    · exact absurd (congrArg Prod.fst h) (by simp)
    · exact absurd (congrArg Prod.fst h) (by simp)
    · exact absurd (congrArg Prod.fst h) (by simp)
    · exact absurd (congrArg Prod.fst h) (by simp)
    · exact absurd (congrArg Prod.fst h) (by simp)
    · exact absurd (congrArg Prod.fst h) (by simp)
    · obtain ⟨hb, htr⟩ := Prod.mk.injEq .. ▸ h
      rw [← htr] at hc
      simp only [List.mem_cons, List.not_mem_nil, or_false] at hc
      rcases hc with rfl | rfl | rfl <;> rfl
  · -- pod status, failed call wrapped with 400/500
    intro env c e hmem
    rcases podStatusServeHTTP_cases env with
      ⟨hd, hout⟩ | ⟨req, e0, hd, hu, hout⟩ | ⟨req, a, hd, hu, hdt, hout⟩ |
      ⟨req, a, e0, hd, hu, hdt, hres, hout⟩ |
      ⟨req, a, dt, e0, hd, hu, hdt, hres, hag, hout⟩ |
      ⟨req, a, dt, e0, hd, hu, hdt, hres, hag, hpods, hout⟩ |
      ⟨req, a, dt, pl, hd, hu, hdt, hres, hag, hpods, hout⟩ <;>
      simp only [hout, List.mem_singleton, List.mem_cons, List.not_mem_nil, or_false,
        CallRecord.mk.injEq, Option.some.injEq, reduceCtorEq, false_and, and_false,
        false_or, or_false] at hmem
    · obtain ⟨hc, rfl⟩ := hmem
      simp [hout, HandlerResult.statusOf, HandlerResult.errOf, GoErr.causeOf, telemetryError]
    · obtain ⟨hc, rfl⟩ := hmem
      simp [hout, HandlerResult.statusOf, HandlerResult.errOf, GoErr.causeOf, telemetryError]
    · obtain ⟨hc, rfl⟩ := hmem
      simp [hout, HandlerResult.statusOf, HandlerResult.errOf, GoErr.causeOf, telemetryError]
  · -- pod status, only the last call can fail
    intro env c hc
    rcases podStatusServeHTTP_cases env with
      ⟨hd, hout⟩ | ⟨req, e0, hd, hu, hout⟩ | ⟨req, a, hd, hu, hdt, hout⟩ |
      ⟨req, a, e0, hd, hu, hdt, hres, hout⟩ |
      ⟨req, a, dt, e0, hd, hu, hdt, hres, hag, hout⟩ |
      ⟨req, a, dt, e0, hd, hu, hdt, hres, hag, hpods, hout⟩ |
      ⟨req, a, dt, pl, hd, hu, hdt, hres, hag, hpods, hout⟩ <;>
      simp only [hout, List.dropLast, List.mem_cons, List.not_mem_nil, or_false] at hc
    · rw [hc]
    · rcases hc with rfl | rfl <;> rfl
    · rcases hc with rfl | rfl <;> rfl
  · -- /latest, success implies clean trace
    intro env b tr h c hc
    rcases latestAppRevisionServeHTTP_cases env with
      ⟨e, hu, hout⟩ | ⟨hd, hout⟩ | ⟨a, req, e, hu, hd, hpar, hout⟩ |
      ⟨a, req, u, e, hu, hd, hpar, hrepo, hout⟩ |
      ⟨a, req, u, hu, hd, hpar, hrepo, hout⟩ |
      ⟨a, req, u, apps, hu, hd, hpar, hrepo, hlen, hout⟩ |
      ⟨a, req, u, app, hu, hd, hpar, hrepo, hid, hout⟩ |
      ⟨a, req, u, app, e, hu, hd, hpar, hrepo, hid, hccp, hout⟩ |
      ⟨a, req, u, app, hu, hd, hpar, hrepo, hid, hccp, hout⟩ |
      ⟨a, req, u, app, msg, e, hu, hd, hpar, hrepo, hid, hccp, henc, hout⟩ |
      ⟨a, req, u, app, msg, enc, e, hu, hd, hpar, hrepo, hid, hccp, henc, hnot, hout⟩ |
      ⟨a, req, u, app, msg, enc, events, hu, hd, hpar, hrepo, hid, hccp, henc, hnot,
        hout⟩ <;> rw [hout] at h
    · exact absurd (congrArg Prod.fst h) (by simp)
    · exact absurd (congrArg Prod.fst h) (by simp)
    · exact absurd (congrArg Prod.fst h) (by simp)
    · exact absurd (congrArg Prod.fst h) (by simp)
    · exact absurd (congrArg Prod.fst h) (by simp)
    · exact absurd (congrArg Prod.fst h) (by simp)
    · exact absurd (congrArg Prod.fst h) (by simp)
    · exact absurd (congrArg Prod.fst h) (by simp)
    · exact absurd (congrArg Prod.fst h) (by simp)
    · exact absurd (congrArg Prod.fst h) (by simp)
    · exact absurd (congrArg Prod.fst h) (by simp)
    · obtain ⟨hb, htr⟩ := Prod.mk.injEq .. ▸ h
      rw [← htr] at hc
      simp only [List.mem_cons, List.not_mem_nil, or_false] at hc
      rcases hc with rfl | rfl | rfl <;> rfl
  · -- /latest, failed call wrapped with 400/500
    intro env c e hmem
    rcases latestAppRevisionServeHTTP_cases env with
      ⟨e0, hu, hout⟩ | ⟨hd, hout⟩ | ⟨a, req, e0, hu, hd, hpar, hout⟩ |
      ⟨a, req, u, e0, hu, hd, hpar, hrepo, hout⟩ |
      ⟨a, req, u, hu, hd, hpar, hrepo, hout⟩ |
      ⟨a, req, u, apps, hu, hd, hpar, hrepo, hlen, hout⟩ |
      ⟨a, req, u, app, hu, hd, hpar, hrepo, hid, hout⟩ |
      ⟨a, req, u, app, e0, hu, hd, hpar, hrepo, hid, hccp, hout⟩ |
      ⟨a, req, u, app, hu, hd, hpar, hrepo, hid, hccp, hout⟩ |
      ⟨a, req, u, app, msg, e0, hu, hd, hpar, hrepo, hid, hccp, henc, hout⟩ |
      ⟨a, req, u, app, msg, enc, e0, hu, hd, hpar, hrepo, hid, hccp, henc, hnot, hout⟩ |
      ⟨a, req, u, app, msg, enc, events, hu, hd, hpar, hrepo, hid, hccp, henc, hnot,
        hout⟩ <;>
      simp only [hout, List.mem_singleton, List.mem_cons, List.not_mem_nil, or_false,
        CallRecord.mk.injEq, Option.some.injEq, reduceCtorEq, false_and, and_false,
        false_or, or_false] at hmem
    · obtain ⟨hc, rfl⟩ := hmem
      simp [hout, HandlerResult.statusOf, HandlerResult.errOf, GoErr.causeOf, telemetryError]
    · obtain ⟨hc, rfl⟩ := hmem
      simp [hout, HandlerResult.statusOf, HandlerResult.errOf, GoErr.causeOf, telemetryError]
    · obtain ⟨hc, rfl⟩ := hmem
      simp [hout, HandlerResult.statusOf, HandlerResult.errOf, GoErr.causeOf, telemetryError]
  · -- /latest, only the last call can fail
    intro env c hc
    rcases latestAppRevisionServeHTTP_cases env with
      ⟨e0, hu, hout⟩ | ⟨hd, hout⟩ | ⟨a, req, e0, hu, hd, hpar, hout⟩ |
      ⟨a, req, u, e0, hu, hd, hpar, hrepo, hout⟩ |
      ⟨a, req, u, hu, hd, hpar, hrepo, hout⟩ |
      ⟨a, req, u, apps, hu, hd, hpar, hrepo, hlen, hout⟩ |
      ⟨a, req, u, app, hu, hd, hpar, hrepo, hid, hout⟩ |
      ⟨a, req, u, app, e0, hu, hd, hpar, hrepo, hid, hccp, hout⟩ |
      ⟨a, req, u, app, hu, hd, hpar, hrepo, hid, hccp, hout⟩ |
      ⟨a, req, u, app, msg, e0, hu, hd, hpar, hrepo, hid, hccp, henc, hout⟩ |
      ⟨a, req, u, app, msg, enc, e0, hu, hd, hpar, hrepo, hid, hccp, henc, hnot, hout⟩ |
      ⟨a, req, u, app, msg, enc, events, hu, hd, hpar, hrepo, hid, hccp, henc, hnot,
        hout⟩ <;>
      simp only [hout, List.dropLast, List.mem_cons, List.not_mem_nil, or_false] at hc
    · rw [hc]
    · rw [hc]
    · rw [hc]
    · rcases hc with rfl | rfl <;> rfl
    · rcases hc with rfl | rfl <;> rfl
  · -- /apps/revisions, success implies clean trace
    intro env b tr h c hc
    rcases latestAppRevisionsServeHTTP_cases env with
      ⟨hd, hout⟩ | ⟨req, e, hd, hpar, hout⟩ | ⟨req, hd, hpar, hout⟩ |
      ⟨req, u, e, hd, hpar, hnil, hccp, hout⟩ | ⟨req, u, hd, hpar, hnil, hccp, hout⟩ |
      ⟨req, u, msg, hd, hpar, hnil, hccp, hout⟩ <;> rw [hout] at h
    · exact absurd (congrArg Prod.fst h) (by simp)
    · exact absurd (congrArg Prod.fst h) (by simp)
    · exact absurd (congrArg Prod.fst h) (by simp)
    · exact absurd (congrArg Prod.fst h) (by simp)
    · exact absurd (congrArg Prod.fst h) (by simp)
    · obtain ⟨entries, recs, hresp, htr2, hall, herr⟩ :=
        buildRevisions_success_spec env (msg.appRevisions.getD []) _ _ _ _ h
      rw [htr2] at hc
      rcases List.mem_append.mp hc with hc | hc
      · simp only [List.mem_singleton] at hc
        rw [hc]
      · exact herr c hc
  · -- /apps/revisions, failed call wrapped with 400/500
    intro env c e hmem
    rcases latestAppRevisionsServeHTTP_cases env with
      ⟨hd, hout⟩ | ⟨req, e0, hd, hpar, hout⟩ | ⟨req, hd, hpar, hout⟩ |
      ⟨req, u, e0, hd, hpar, hnil, hccp, hout⟩ | ⟨req, u, hd, hpar, hnil, hccp, hout⟩ |
      ⟨req, u, msg, hd, hpar, hnil, hccp, hout⟩
    · simp [hout] at hmem
    · simp [hout] at hmem
    · simp [hout] at hmem
    · simp only [hout, List.mem_singleton, CallRecord.mk.injEq, Option.some.injEq] at hmem
      obtain ⟨hc, rfl⟩ := hmem
      simp [hout, HandlerResult.statusOf, HandlerResult.errOf, GoErr.causeOf, telemetryError]
    · simp [hout] at hmem
    · rw [hout] at hmem ⊢
      have hfail := buildRevisions_failed_call env (msg.appRevisions.getD []) []
        [⟨.ccpLatestAppRevisions env.projectID (env.uuidString u), none⟩]
        (buildRevisions env (msg.appRevisions.getD []) []
          [⟨.ccpLatestAppRevisions env.projectID (env.uuidString u), none⟩]).1
        (buildRevisions env (msg.appRevisions.getD []) []
          [⟨.ccpLatestAppRevisions env.projectID (env.uuidString u), none⟩]).2
        (by simp) rfl c e hmem
      rw [hfail]
      simp [HandlerResult.statusOf, HandlerResult.errOf, GoErr.causeOf, telemetryError]
  · -- /apps/revisions, only the last call can fail
    intro env c hc
    rcases latestAppRevisionsServeHTTP_cases env with
      ⟨hd, hout⟩ | ⟨req, e0, hd, hpar, hout⟩ | ⟨req, hd, hpar, hout⟩ |
      ⟨req, u, e0, hd, hpar, hnil, hccp, hout⟩ | ⟨req, u, hd, hpar, hnil, hccp, hout⟩ |
      ⟨req, u, msg, hd, hpar, hnil, hccp, hout⟩
    · simp [hout, List.dropLast] at hc
    · simp [hout, List.dropLast] at hc
    · simp [hout, List.dropLast] at hc
    · simp [hout, List.dropLast] at hc
    · simp [hout, List.dropLast] at hc
    · rw [hout] at hc
      exact buildRevisions_dropLast_ok env (msg.appRevisions.getD []) []
        [⟨.ccpLatestAppRevisions env.projectID (env.uuidString u), none⟩]
        (buildRevisions env (msg.appRevisions.getD []) []
          [⟨.ccpLatestAppRevisions env.projectID (env.uuidString u), none⟩]).1
        (buildRevisions env (msg.appRevisions.getD []) []
          [⟨.ccpLatestAppRevisions env.projectID (env.uuidString u), none⟩]).2
        (by simp) rfl c hc

/-- Environment used to witness the pass-through theorem: the Kubernetes pod
query fails. -/
def podEnvPodsFail : PodStatusEnv :=
  { podEnvAllOk with getPodsByLabel := fun _ _ => .error (.mk "k8s down" none) }

/-- Witness for C1: a failing pod query is passed through as a 500 wrapping
exactly the upstream error. -/
theorem handlers_pass_through_errors_witness :
    ((podStatusServeHTTP podEnvPodsFail).1.statusOf = some 400 ∨
      (podStatusServeHTTP podEnvPodsFail).1.statusOf = some 500) ∧
    ((podStatusServeHTTP podEnvPodsFail).1.errOf.bind GoErr.causeOf) =
      some (.mk "k8s down" none) :=
  handlers_pass_through_errors.1.2.1 podEnvPodsFail
    (.getPodsByLabel
      "porter.run/service-name=web,porter.run/deployment-target-id=dt-123,porter.run/app-name=my-app"
      "target-ns")
    (.mk "k8s down" none)
    (List.Mem.tail _ (List.Mem.tail _ (List.Mem.head _)))

/-- C9: the add-on dashboard never displays an add-on whose namespace is one
of the eight blacklisted system namespaces or whose chart metadata name is
web, worker, job or umbrella; the displayed list is exactly the remaining
add-ons filtered by the case-insensitive search over the `name` and
`chart.metadata.name` keys, then sorted (lodash `sortBy` with no iteratee,
which preserves the order of plain objects). -/
theorem addon_dashboard_filter :
    (∀ (addOns : List AddOn) (q : String) (app : AddOn), app ∈ filteredAddOns addOns q →
      app.nspace ∉ namespaceBlacklist ∧ app.chart.metadata.name ∉ templateBlacklist ∧
        app ∈ addOns) ∧
    (∀ (addOns : List AddOn) (q : String),
      filteredAddOns addOns q = lodashSortBy (searchAddOns (addOns.filter (fun app =>
        !(namespaceBlacklist.contains app.nspace) &&
        !(templateBlacklist.contains app.chart.metadata.name))) q)) := by
  constructor
  · intro addOns q app h
    simp only [filteredAddOns, lodashSortBy, searchAddOns] at h
    obtain ⟨h1, _⟩ := List.mem_filter.mp h
    obtain ⟨hmem, hcond⟩ := List.mem_filter.mp h1
    simp only [Bool.and_eq_true, Bool.not_eq_true'] at hcond
    refine ⟨?_, ?_, hmem⟩
    · simpa using hcond.1
    · simpa using hcond.2
  · intro addOns q
    rfl

/-- A displayable add-on in the default namespace. -/
def addOnRedis : AddOn := ⟨"my-redis", "default", ⟨⟨"redis", "icon"⟩⟩⟩

/-- A system add-on living in the kube-system namespace. -/
def addOnSystem : AddOn := ⟨"metrics-server", "kube-system", ⟨⟨"metrics", "icon"⟩⟩⟩

/-- Witness for C9: with one system add-on and one normal add-on, the normal
add-on is displayed and is neither namespace- nor template-blacklisted. -/
theorem addon_dashboard_filter_witness :
    addOnRedis.nspace ∉ namespaceBlacklist ∧
      addOnRedis.chart.metadata.name ∉ templateBlacklist ∧
      addOnRedis ∈ [addOnSystem, addOnRedis] :=
  addon_dashboard_filter.1 [addOnSystem, addOnRedis] "" addOnRedis (by decide)

/-- In a `≤`-sorted list of integers, values at earlier positions are no
larger. -/
theorem sorted_getD_le (a : List Int) (hs : a.Sorted (· ≤ ·)) (i j : Nat)
    (hij : i ≤ j) (hj : j < a.length) : a.getD i 0 ≤ a.getD j 0 := by
  have hi : i < a.length := lt_of_le_of_lt hij hj
  rw [List.getD_eq_getElem a 0 hi, List.getD_eq_getElem a 0 hj]
  rcases eq_or_lt_of_le hij with rfl | hlt
  · exact le_refl _
  · exact hs.rel_get_of_lt hlt

/-- Correctness of the d3 bisection on a sorted list: the result lies in
`[lo, hi]`, everything before it (from `lo`) is `< x`, and everything from
it (up to `hi`) is `≥ x`. -/
theorem d3BisectLeft_spec (a : List Int) (x : Int) (hsort : a.Sorted (· ≤ ·)) :
    ∀ lo hi, lo ≤ hi → hi ≤ a.length →
      lo ≤ d3BisectLeft a x lo hi ∧ d3BisectLeft a x lo hi ≤ hi ∧
      (∀ j, lo ≤ j → j < d3BisectLeft a x lo hi → a.getD j 0 < x) ∧
      (∀ j, d3BisectLeft a x lo hi ≤ j → j < hi → x ≤ a.getD j 0) := by
  suffices h : ∀ n lo hi, hi - lo = n → lo ≤ hi → hi ≤ a.length →
      lo ≤ d3BisectLeft a x lo hi ∧ d3BisectLeft a x lo hi ≤ hi ∧
      (∀ j, lo ≤ j → j < d3BisectLeft a x lo hi → a.getD j 0 < x) ∧
      (∀ j, d3BisectLeft a x lo hi ≤ j → j < hi → x ≤ a.getD j 0) by
    intro lo hi hlh hhi
    exact h (hi - lo) lo hi rfl hlh hhi
  intro n
  induction n using Nat.strong_induction_on with
  | _ n ih =>
    intro lo hi hn hlh hhi
    rw [d3BisectLeft]
    by_cases hlt : lo < hi
    · rw [dif_pos hlt]
      by_cases hc : a.getD ((lo + hi) / 2) 0 < x
      · rw [if_pos hc]
        obtain ⟨h1, h2, h3, h4⟩ := ih (hi - ((lo + hi) / 2 + 1)) (by omega)
          ((lo + hi) / 2 + 1) hi rfl (by omega) hhi
        refine ⟨by omega, h2, ?_, h4⟩
        intro j hj1 hj2
        by_cases hj : (lo + hi) / 2 + 1 ≤ j
        · exact h3 j hj hj2
        · calc a.getD j 0 ≤ a.getD ((lo + hi) / 2) 0 :=
              sorted_getD_le a hsort j ((lo + hi) / 2) (by omega) (by omega)
            _ < x := hc
      · rw [if_neg hc]
        obtain ⟨h1, h2, h3, h4⟩ := ih ((lo + hi) / 2 - lo) (by omega)
          lo ((lo + hi) / 2) rfl (by omega) (by omega)
        refine ⟨h1, by omega, h3, ?_⟩
        intro j hj1 hj2
        by_cases hj : j < (lo + hi) / 2
        · exact h4 j hj1 hj
        · calc x ≤ a.getD ((lo + hi) / 2) 0 := le_of_not_lt hc
            _ ≤ a.getD j 0 :=
              sorted_getD_le a hsort ((lo + hi) / 2) j (by omega) (by omega)
    · rw [dif_neg hlt]
      exact ⟨le_refl _, by omega, by omega, by omega⟩

/-- Positions in a sorted metrics series are monotone in date
(milliseconds). -/
theorem getDateMs_mono (data : List NormalizedMetricsData)
    (hsort : data.Sorted (fun d e => d.date ≤ e.date)) (j k : Nat) (hjk : j ≤ k)
    (hk : k < data.length) : getDateMs data[j] ≤ getDateMs data[k] := by
  have hsortm : (data.map getDateMs).Sorted (· ≤ ·) := by
    refine hsort.map getDateMs ?_
    intro d e h
    simp only [getDateMs]
    omega
  have h := sorted_getD_le (data.map getDateMs) hsortm j k hjk (by simpa using hk)
  rwa [List.getD_eq_getElem _ 0 (by simpa using lt_of_le_of_lt hjk hk),
    List.getD_eq_getElem _ 0 (by simpa using hk), List.getElem_map, List.getElem_map] at h

/-- C10: for every non-empty metrics series sorted in ascending order by
date, the AreaChart tooltip handler selects the datum whose date is nearest
to the cursor's inverted time coordinate `x0`, choosing the earlier datum on
an exact distance tie or when no later datum exists; the selection is the
bisection index followed by the comparison of the two neighbouring data
points. -/
theorem areachart_tooltip_nearest (data : List NormalizedMetricsData) (x0 : Int)
    (hne : data ≠ []) (hsort : data.Sorted (fun d e => d.date ≤ e.date)) :
    (∃ d, handleTooltipSelect data x0 = some d ∧ d ∈ data ∧
      ∀ e ∈ data, (x0 - getDateMs d).natAbs ≤ (x0 - getDateMs e).natAbs) ∧
    (∀ d0 d1, data[tooltipIndex data x0 - 1]? = some d0 →
      data[tooltipIndex data x0]? = some d1 →
      (x0 - getDateMs d0).natAbs = (x0 - getDateMs d1).natAbs →
      handleTooltipSelect data x0 = some d0) ∧
    (∀ d0, data[tooltipIndex data x0 - 1]? = some d0 →
      data[tooltipIndex data x0]? = none →
      handleTooltipSelect data x0 = some d0) := by
  have hn : 0 < data.length := List.length_pos.mpr hne
  have hsortm : (data.map getDateMs).Sorted (· ≤ ·) := by
    refine hsort.map getDateMs ?_
    intro d e h
    simp only [getDateMs]
    omega
  obtain ⟨hi1, hi2, hbelow, habove⟩ :
      1 ≤ tooltipIndex data x0 ∧ tooltipIndex data x0 ≤ data.length ∧
      (∀ j, 1 ≤ j → j < tooltipIndex data x0 → (data.map getDateMs).getD j 0 < x0) ∧
      (∀ j, tooltipIndex data x0 ≤ j → j < data.length →
        x0 ≤ (data.map getDateMs).getD j 0) :=
    d3BisectLeft_spec (data.map getDateMs) x0 hsortm 1 data.length hn
      (le_of_eq (List.length_map data getDateMs).symm)
  have hbelow2 : ∀ j, 1 ≤ j → j < tooltipIndex data x0 → (hj : j < data.length) →
      getDateMs data[j] < x0 := by
    intro j h1 h2 hj
    have := hbelow j h1 h2
    rwa [List.getD_eq_getElem _ 0 (by simpa using hj), List.getElem_map] at this
  have habove2 : ∀ j, tooltipIndex data x0 ≤ j → (hj : j < data.length) →
      x0 ≤ getDateMs data[j] := by
    intro j h1 hj
    have := habove j h1 hj
    rwa [List.getD_eq_getElem _ 0 (by simpa using hj), List.getElem_map] at this
  have hprev : tooltipIndex data x0 - 1 < data.length := by omega
  have hd0some : data[tooltipIndex data x0 - 1]? = some data[tooltipIndex data x0 - 1] :=
    List.getElem?_eq_getElem hprev
  rcases lt_or_eq_of_le hi2 with hilt | hieq
  · -- a later datum exists
    have hd1some : data[tooltipIndex data x0]? = some data[tooltipIndex data x0] :=
      List.getElem?_eq_getElem hilt
    have hxle : x0 ≤ getDateMs data[tooltipIndex data x0] := habove2 _ (le_refl _) hilt
    have hAB : getDateMs data[tooltipIndex data x0 - 1] ≤
        getDateMs data[tooltipIndex data x0] :=
      getDateMs_mono data hsort _ _ (by omega) hilt
    have hsel : handleTooltipSelect data x0 =
        some (if x0 - getDateMs data[tooltipIndex data x0 - 1] >
            getDateMs data[tooltipIndex data x0] - x0
          then data[tooltipIndex data x0] else data[tooltipIndex data x0 - 1]) := by
      simp only [handleTooltipSelect, hd0some, hd1some]
    refine ⟨?_, ?_, ?_⟩
    · by_cases hcond : x0 - getDateMs data[tooltipIndex data x0 - 1] >
          getDateMs data[tooltipIndex data x0] - x0
      · -- the later datum is strictly closer
        have hAx : getDateMs data[tooltipIndex data x0 - 1] < x0 := by omega
        refine ⟨data[tooltipIndex data x0], by rw [hsel, if_pos hcond],
          List.getElem_mem _, ?_⟩
        intro e he
        obtain ⟨j, hj, rfl⟩ := List.mem_iff_getElem.mp he
        by_cases hji : tooltipIndex data x0 ≤ j
        · have h1 := habove2 j hji hj
          have h2 := getDateMs_mono data hsort (tooltipIndex data x0) j hji hj
          omega
        · have h2 := getDateMs_mono data hsort j (tooltipIndex data x0 - 1) (by omega) hprev
          omega
      · -- the earlier datum is at least as close
        refine ⟨data[tooltipIndex data x0 - 1], by rw [hsel, if_neg hcond],
          List.getElem_mem _, ?_⟩
        intro e he
        obtain ⟨j, hj, rfl⟩ := List.mem_iff_getElem.mp he
        by_cases hji : tooltipIndex data x0 ≤ j
        · have h1 := habove2 j hji hj
          have h2 := getDateMs_mono data hsort (tooltipIndex data x0) j hji hj
          omega
        · by_cases hi2' : 2 ≤ tooltipIndex data x0
          · have hAx : getDateMs data[tooltipIndex data x0 - 1] < x0 :=
              hbelow2 _ (by omega) (by omega) hprev
            have h2 := getDateMs_mono data hsort j (tooltipIndex data x0 - 1) (by omega) hprev
            omega
          · have hj0 : j = tooltipIndex data x0 - 1 := by omega
            subst hj0
            omega
    · intro d0 d1 hd0 hd1 htie
      rw [hd0some] at hd0
      rw [hd1some] at hd1
      obtain rfl := Option.some.injEq .. ▸ hd0
      obtain rfl := Option.some.injEq .. ▸ hd1
      rw [hsel, if_neg (by omega)]
    · intro d0 hd0 hnone
      rw [hd1some] at hnone
      exact absurd hnone (by simp)
  · -- no later datum: the index is the length
    have hnone : data[tooltipIndex data x0]? = none := by
      rw [hieq]
      exact List.getElem?_eq_none (le_refl _)
    have hsel : handleTooltipSelect data x0 = some data[tooltipIndex data x0 - 1] := by
      simp only [handleTooltipSelect, hd0some, hnone]
    refine ⟨?_, ?_, ?_⟩
    · refine ⟨data[tooltipIndex data x0 - 1], hsel, List.getElem_mem _, ?_⟩
      intro e he
      obtain ⟨j, hj, rfl⟩ := List.mem_iff_getElem.mp he
      have h2 := getDateMs_mono data hsort j (tooltipIndex data x0 - 1) (by omega) hprev
      by_cases hn2 : 2 ≤ data.length
      · have hAx : getDateMs data[tooltipIndex data x0 - 1] < x0 :=
          hbelow2 _ (by omega) (by omega) hprev
        omega
      · have hj0 : j = tooltipIndex data x0 - 1 := by omega
        subst hj0
        omega
    · intro d0 d1 hd0 hd1 htie
      rw [hnone] at hd1
      exact absurd hd1 (by simp)
    · intro d0 hd0 hnone2
      rw [hd0some] at hd0
      obtain rfl := Option.some.injEq .. ▸ hd0
      exact hsel

/-- Witness for C10: on the two-point series (10s, 20s) with the cursor at
15000ms — an exact distance tie — the earlier datum is selected. -/
theorem areachart_tooltip_nearest_witness :
    handleTooltipSelect [⟨10, 1⟩, ⟨20, 2⟩] 15000 = some ⟨10, 1⟩ :=
  (areachart_tooltip_nearest [⟨10, 1⟩, ⟨20, 2⟩] 15000 (by decide)
      (by simp [List.Sorted])).2.1 ⟨10, 1⟩ ⟨20, 2⟩
    (by simp [tooltipIndex, d3BisectLeft, getDateMs])
    (by simp [tooltipIndex, d3BisectLeft, getDateMs])
    (by decide)

end Porter
